import Mathlib

/-!
Verification of the IPAM engine's block/reservation core (src/engine/app/
routers/space.py) against its specification. The Python handlers are shallowly
embedded: netaddr prefixes become `Cidr`, netaddr `IPSet`s become interval
lists with explicit normalization, and each handler becomes a total function
returning `Except ApiErr`. String parsing, JWT decoding and the HTTP layer are
abstracted into explicit parameters (creator, now, newId).
-/

deriving instance DecidableEq for Except

namespace Ipam

/-- An IPv4 prefix `base/len` mirroring netaddr's `IPNetwork`: `base` is the
possibly unaligned address and `len` the mask length. -/
structure Cidr where
  base : Nat
  len : Nat
deriving DecidableEq

/-- Number of addresses covered, netaddr `IPNetwork.size = 2^(32-len)`. -/
def Cidr.size (c : Cidr) : Nat := 2 ^ (32 - c.len)

/-- The aligned network address (netaddr `IPNetwork.first`). -/
def Cidr.netBase (c : Cidr) : Nat := c.base - c.base % c.size

/-- netaddr containment `a in b`: `b.first <= a.first and a.last <= b.last`. -/
def Cidr.inNet (a b : Cidr) : Bool :=
  decide (b.netBase ≤ a.netBase ∧ a.netBase + a.size ≤ b.netBase + b.size)

/-- The check `str(IPNetwork(x).cidr) == x`: the textual form is already the
canonical CIDR (aligned base, mask length at most 32). -/
def Cidr.canonicalB (c : Cidr) : Bool :=
  decide (c.base % c.size = 0 ∧ c.len ≤ 32)

/-- Claim-level address-range containment on raw bases (for conclusions about
aligned prefixes this coincides with netaddr containment). -/
def Cidr.withinR (a b : Cidr) : Prop :=
  b.base ≤ a.base ∧ a.base + a.size ≤ b.base + b.size

instance (a b : Cidr) : Decidable (a.withinR b) :=
  inferInstanceAs (Decidable (_ ∧ _))

/-- A half-open interval of addresses. -/
structure Ival where
  lo : Nat
  hi : Nat
deriving DecidableEq

/-- A netaddr `IPSet` value: a list of address intervals. -/
abbrev IpSet := List Ival

/-- Membership of an address in an interval set. -/
def memSet (s : IpSet) (x : Nat) : Prop := ∃ i ∈ s, i.lo ≤ x ∧ x < i.hi

instance (s : IpSet) (x : Nat) : Decidable (memSet s x) :=
  inferInstanceAs (Decidable (∃ i ∈ s, i.lo ≤ x ∧ x < i.hi))

/-- Ordering of intervals by start, used by the set normal form. -/
def ivLE (a b : Ival) : Prop := a.lo ≤ b.lo

instance : DecidableRel ivLE := fun a b => inferInstanceAs (Decidable (a.lo ≤ b.lo))

instance : IsTotal Ival ivLE := ⟨fun a b => Nat.le_total a.lo b.lo⟩

instance : IsTrans Ival ivLE := ⟨fun _ _ _ h1 h2 => Nat.le_trans h1 h2⟩

/-- Coalesce a lo-sorted interval list, merging overlapping or adjacent
intervals into maximal ones. -/
def mergeIvals : List Ival → List Ival
  | [] => []
  | i :: rest =>
    match mergeIvals rest with
    | [] => [i]
    | j :: rest2 =>
      if j.lo ≤ i.hi then ⟨i.lo, max i.hi j.hi⟩ :: rest2 else i :: j :: rest2

/-- The sorted, coalesced normal form underlying netaddr `IPSet` operations. -/
def normalizeSet (s : IpSet) : IpSet := mergeIvals (List.insertionSort ivLE s)

/-- netaddr `IPSet` union. -/
def unionSet (a b : IpSet) : IpSet := normalizeSet (a ++ b)

/-- Subtract one interval from another (at most two nonempty pieces). -/
def ivalSub (i j : Ival) : List Ival :=
  (if i.lo < min i.hi j.lo then [⟨i.lo, min i.hi j.lo⟩] else []) ++
  (if max i.lo j.hi < i.hi then [⟨max i.lo j.hi, i.hi⟩] else [])

/-- Interval-set difference. -/
def diffSet (a b : IpSet) : IpSet :=
  b.foldl (fun acc j => acc.flatMap (fun i => ivalSub i j)) a

/-- netaddr `IPSet.__xor__` (symmetric difference). -/
def symmDiffSet (a b : IpSet) : IpSet := unionSet (diffSet a b) (diffSet b a)

/-- netaddr subset test (`IPSet.issubset`, and `IPNetwork in IPSet`). -/
def subsetSet (a b : IpSet) : Bool := (diffSet a b).isEmpty

/-- Whether two intervals share an address. -/
def ivalOverlap (i j : Ival) : Bool := decide (max i.lo j.lo < min i.hi j.hi)

/-- Truthiness of `IPSet(a) & IPSet(b)` (nonempty intersection). -/
def overlapSet (a b : IpSet) : Bool :=
  a.any (fun i => b.any (fun j => ivalOverlap i j))

/-- The address interval of a prefix (netaddr network..broadcast range). -/
def Cidr.toIval (c : Cidr) : Ival := ⟨c.netBase, c.netBase + c.size⟩

/-- The `IPSet` of a list of prefixes. -/
def cidrSet (l : List Cidr) : IpSet := l.map Cidr.toIval

/-- Fueled base-2 logarithm (structural so that the kernel can evaluate it). -/
def log2fuel : Nat → Nat → Nat
  | 0, _ => 0
  | f + 1, n => if 2 ≤ n then log2fuel f (n / 2) + 1 else 0

/-- Base-2 logarithm of a 32-bit quantity. -/
def log2n (n : Nat) : Nat := log2fuel 64 n

/-- Fueled count of trailing zero bits. -/
def trailingZeros : Nat → Nat → Nat
  | 0, _ => 0
  | f + 1, n => if n % 2 = 0 then trailingZeros f (n / 2) + 1 else 0

/-- The largest power-of-two block size that may start at address `lo`. -/
def alignStep (lo : Nat) : Nat :=
  if lo = 0 then 2 ^ 32 else 2 ^ trailingZeros 33 lo

/-- The largest power of two at most `n` (for `n ≥ 1`). -/
def pow2le (n : Nat) : Nat := if n = 0 then 1 else 2 ^ log2n n

/-- Split a half-open address interval into maximal CIDRs in ascending order
(the per-interval step of netaddr `IPSet.iter_cidrs`). -/
def splitIval : Nat → Nat → Nat → List Cidr
  | 0, _, _ => []
  | fuel + 1, lo, hi =>
    if lo < hi then
      let step := min (alignStep lo) (pow2le (hi - lo))
      ⟨lo, 32 - log2n step⟩ :: splitIval fuel (lo + step) hi
    else []

/-- netaddr `IPSet.iter_cidrs()`: the ascending list of maximal prefixes. -/
def iterCidrs (s : IpSet) : List Cidr :=
  (normalizeSet s).flatMap (fun i => splitIval 128 i.lo i.hi)

/-- netaddr `IPNetwork.subnet(n)`: the `n`-length subnets in ascending order
(empty when `n` is shorter than the prefix itself). -/
def Cidr.subnets (c : Cidr) (n : Nat) : List Cidr :=
  if n < c.len then []
  else (List.range (2 ^ (n - c.len))).map (fun i => ⟨c.base + i * 2 ^ (32 - n), n⟩)

/-- Python `list(net.subnet(size))[0]` / `[-1]` as selected by next_selector. -/
def subnetSel (c : Cidr) (n : Nat) (rev : Bool) : Option Cidr :=
  if rev then (c.subnets n).getLast? else (c.subnets n).head?

/-- A stored CIDR reservation. -/
structure Reservation where
  rid : String
  cidr : Cidr
  desc : String
  createdOn : Nat
  createdBy : String
  settledOn : Option Nat
  settledBy : Option String
  status : String
deriving DecidableEq

/-- An endpoint of an external subnet. -/
structure ExtEndpoint where
  name : String
  desc : String
  ip : Nat
deriving DecidableEq

/-- A subnet of an external network. -/
structure ExtSubnet where
  name : String
  desc : String
  cidr : Cidr
  endpoints : List ExtEndpoint
deriving DecidableEq

/-- An external network carved inside a block. -/
structure ExtNet where
  name : String
  desc : String
  cidr : Cidr
  subnets : List ExtSubnet
deriving DecidableEq

/-- A weak reference to an inventory virtual network. -/
structure VNetRef where
  vid : String
  active : Bool
deriving DecidableEq

/-- A block of a space. -/
structure Block where
  name : String
  cidr : Cidr
  vnets : List VNetRef
  externals : List ExtNet
  resv : List Reservation
deriving DecidableEq

/-- A persisted Space document. -/
structure SpaceDoc where
  sid : String
  name : String
  desc : String
  blocks : List Block
deriving DecidableEq

/-- An inventory network as returned by get_network. -/
structure NetInfo where
  nid : String
  prefixes : List Cidr
deriving DecidableEq

/-- The per-tenant document collection. -/
abbrev Store := List SpaceDoc

/-- Errors surfaced by the handlers. `pyError` stands for an exception the
Python source does not raise deliberately (ValueError, TypeError, ...). -/
inductive ApiErr where
  | badRequest (detail : String)
  | forbidden (detail : String)
  | conflict (detail : String)
  | internal (detail : String)
  | pyError (detail : String)
deriving DecidableEq

/-- ASCII lower-casing of one character (Python str.lower on the name
alphabets used here). -/
def lowerChar (c : Char) : Char :=
  if 65 ≤ c.toNat ∧ c.toNat ≤ 90 then Char.ofNat (c.toNat + 32) else c

/-- Case-insensitive name comparison, `a.lower() == b.lower()`. -/
def lowerEq (a b : String) : Bool := a.data.map lowerChar == b.data.map lowerChar

/-- The space query plus `space_query[0]` access (first case-insensitive
name match). -/
def findSpace (store : Store) (name : String) : Option SpaceDoc :=
  store.find? (fun d => lowerEq d.name name)

/-- `next((x for x in blocks if x.name.lower() == block.lower()), None)`. -/
def findBlockIn (blocks : List Block) (name : String) : Option Block :=
  blocks.find? (fun b => lowerEq b.name name)

/-- Prefixes of an inventory vnet that fall inside the block CIDR; a vnet
absent from the inventory contributes nothing (lookup by lowercased id). -/
def vnetInBlockPrefs (netList : List NetInfo) (b : Block) (v : VNetRef) : List Cidr :=
  match netList.find? (fun x => lowerEq x.nid v.vid) with
  | some t => t.prefixes.filter (fun p => p.inNet b.cidr)
  | none => []

/-- block_all_cidrs of create_block_reservation / create_multi_block_reservation:
in-block vnet prefixes, then unsettled reservations, then externals. -/
def blockAllCidrs (netList : List NetInfo) (b : Block) : List Cidr :=
  (b.vnets.flatMap (vnetInBlockPrefs netList b))
  ++ ((b.resv.filter (fun r => r.settledOn.isNone)).map (fun r => r.cidr))
  ++ (b.externals.map (fun e => e.cidr))

/-- Pairwise non-overlap of a list of prefixes (address-range based). -/
def pairwiseDisjointB : List Cidr → Bool
  | [] => true
  | c :: cs => cs.all (fun d => !(ivalOverlap c.toIval d.toIval)) && pairwiseDisjointB cs

/-- Invariant I3 for one block: every claimed prefix (in-block vnet prefixes,
externals, unsettled reservations) lies inside block.cidr and the claimed
prefixes are pairwise non-overlapping. -/
def blockI3 (netList : List NetInfo) (b : Block) : Bool :=
  (blockAllCidrs netList b).all (fun c => c.inNet b.cidr)
    && pairwiseDisjointB (blockAllCidrs netList b)

/-- available_set = IPSet([block.cidr]) ^ IPSet(block_all_cidrs). -/
def availableSetOf (netList : List NetInfo) (b : Block) : IpSet :=
  symmDiffSet (cidrSet [b.cidr]) (cidrSet (blockAllCidrs netList b))

/-- Python `max()` over a list; `none` on an empty sequence corresponds to the
ValueError raised without a `default=`. -/
def listMaxNat : List Nat → Option Nat
  | [] => none
  | n :: ns =>
    some (match listMaxNat ns with
      | none => n
      | some m => max n m)

/-- The allocation scan of create_block_reservation (space.py 3025-3033):
slice direction from reverse_search, smallest_cidr filtering with a
default-less `max()` that raises ValueError on an empty candidate list. -/
def pickAvailableBlock (availableSet : IpSet) (size : Nat) (rev small : Bool) :
    Except ApiErr (Option Cidr) :=
  let scanned := if rev then (iterCidrs availableSet).reverse else iterCidrs availableSet
  if small then
    let cidrList := scanned.filter (fun c => decide (c.len ≤ size))
    match listMaxNat (cidrList.map Cidr.len) with
    | none => .error (.pyError "ValueError: max() arg is an empty sequence")
    | some minMask => .ok ((cidrList.filter (fun c => decide (c.len = minMask))).head?)
  else
    .ok (scanned.find? (fun c => decide (c.len ≤ size)))

/-- The same scan in create_multi_block_reservation (space.py 955-960), where
`max(..., default=None)` turns the empty candidate list into no pick. -/
def pickAvailableBlockMulti (availableSet : IpSet) (size : Nat) (rev small : Bool) :
    Option Cidr :=
  let scanned := if rev then (iterCidrs availableSet).reverse else iterCidrs availableSet
  if small then
    let cidrList := scanned.filter (fun c => decide (c.len ≤ size))
    match listMaxNat (cidrList.map Cidr.len) with
    | none => none
    | some minMask => (cidrList.filter (fun c => decide (c.len = minMask))).head?
  else
    scanned.find? (fun c => decide (c.len ≤ size))

/-- Body of POST /spaces/s/blocks/b/reservations. -/
structure BlockCIDRReq where
  size : Nat
  cidr : Option Cidr
  desc : String
  reverse_search : Bool
  smallest_cidr : Bool
deriving DecidableEq

/-- Update the first block whose name matches case-insensitively (the object
aliasing of `next(...)` followed by in-place mutation). -/
def updateBlockFirst : List Block → String → (Block → Block) → List Block
  | [], _, _ => []
  | b :: bs, n, f =>
    if lowerEq b.name n then f b :: bs else b :: updateBlockFirst bs n f

/-- cosmos_replace(old, new): replace the stored document, matched by id. -/
def cosmosReplace (store : Store) (oldDoc newDoc : SpaceDoc) : Store :=
  store.map (fun d => if d.sid = oldDoc.sid then newDoc else d)

/-- POST /spaces/s/blocks/b/reservations (space.py 2918-3063). The store is
threaded explicitly so that the single cosmos_replace call marks the commit
point; on every raise the store is returned unchanged. -/
def create_block_reservation (store : Store) (spaceName blockName : String)
    (netList : List NetInfo) (req : BlockCIDRReq) (creator : String) (now : Nat)
    (newId : String) : Except ApiErr Reservation × Store :=
  match findSpace store spaceName with
  | none => (.error (.badRequest "Invalid space name."), store)
  | some doc =>
    match findBlockIn doc.blocks blockName with
    | none => (.error (.badRequest "Invalid block name."), store)
    | some tb =>
      let availableSet := availableSetOf netList tb
      let nextCidr : Except ApiErr Cidr :=
        match req.cidr with
        | some c =>
          if subsetSet (cidrSet [c]) availableSet then .ok c
          else .error (.conflict "Requested CIDR overlaps existing network(s).")
        | none =>
          match pickAvailableBlock availableSet req.size req.reverse_search req.smallest_cidr with
          | .error e => .error e
          | .ok none => .error (.internal "Network of requested size unavailable in target block.")
          | .ok (some ab) =>
            match subnetSel ab req.size req.reverse_search with
            | some nc => .ok nc
            | none => .error (.pyError "IndexError: list index out of range")
      match nextCidr with
      | .error e => (.error e, store)
      | .ok nc =>
        let r : Reservation :=
          { rid := newId, cidr := nc, desc := req.desc, createdOn := now,
            createdBy := creator, settledOn := none, settledBy := none, status := "wait" }
        let newBlocks := updateBlockFirst doc.blocks blockName
          (fun b => { b with resv := b.resv ++ [r] })
        let doc2 := { doc with blocks := newBlocks }
        (.ok r, cosmosReplace store doc doc2)

/-- Whether a character is allowed inside a name (the class of
SPACE_NAME_REGEX and its siblings). -/
def nameChar (c : Char) : Bool := c.isAlphanum || c == '.' || c == '_' || c == '-'

/-- Whether a character may not start or end a name. -/
def nameEdgeBad (c : Char) : Bool := c == '.' || c == '_' || c == '-'

/-- The name regexes of space.py: 1-64 chars of [A-Za-z0-9._-], not starting
or ending with a punctuation character. -/
def validName (s : String) : Bool :=
  let l := s.toList
  decide (1 ≤ l.length) && decide (l.length ≤ 64) && l.all nameChar
    && !(match l.head? with | some c => nameEdgeBad c | none => true)
    && !(match l.getLast? with | some c => nameEdgeBad c | none => true)

/-- Whether a character is allowed inside a description. -/
def descChar (c : Char) : Bool := nameChar c || c == ' ' || c == '/'

/-- Whether a character may not start or end a description. -/
def descEdgeBad (c : Char) : Bool := nameEdgeBad c || c == ' ' || c == '/'

/-- The description regexes of space.py: 1-128 chars of [A-Za-z0-9 /._-], not
starting or ending with a punctuation, space or slash character. -/
def validDesc (s : String) : Bool :=
  let l := s.toList
  decide (1 ≤ l.length) && decide (l.length ≤ 128) && l.all descChar
    && !(match l.head? with | some c => descEdgeBad c | none => true)
    && !(match l.getLast? with | some c => descEdgeBad c | none => true)

/-- Body of POST /spaces/s/blocks/b/externals. -/
structure ExtNetReq where
  name : String
  desc : String
  cidr : Option Cidr
  size : Nat
deriving DecidableEq

/-- POST /spaces/s/blocks/b/externals (space.py 1766-1864), store-threaded so
that the single cosmos_replace call marks the commit point. -/
def create_external_network (store : Store) (spaceName blockName : String)
    (netList : List NetInfo) (req : ExtNetReq) : Except ApiErr ExtNet × Store :=
  if ¬ validName req.name then
    (.error (.badRequest "External network name invalid."), store)
  else if ¬ validDesc req.desc then
    (.error (.badRequest "External network description invalid."), store)
  else
    match findSpace store spaceName with
    | none => (.error (.badRequest "Invalid space name."), store)
    | some doc =>
      match findBlockIn doc.blocks blockName with
      | none => (.error (.badRequest "Invalid block name."), store)
      | some tb =>
        if (tb.externals.map (fun x => x.name)).contains req.name then
          (.error (.badRequest "External network name already exists in block."), store)
        else
          let blockNetCidrs := tb.vnets.flatMap (vnetInBlockPrefs netList tb)
          let blockSet := cidrSet blockNetCidrs
          let resvSet := cidrSet ((tb.resv.filter (fun r => r.settledOn.isNone)).map (fun r => r.cidr))
          let externalSet := cidrSet (tb.externals.map (fun e => e.cidr))
          let availableSet := symmDiffSet (cidrSet [tb.cidr])
            (unionSet (unionSet resvSet externalSet) blockSet)
          let nextCidr : Except ApiErr Cidr :=
            match req.cidr with
            | some c =>
              if ¬ c.canonicalB then
                .error (.badRequest "External network cidr invalid.")
              else if ¬ c.inNet tb.cidr then
                .error (.badRequest "External network CIDR not within block CIDR.")
              else if overlapSet (cidrSet [c]) externalSet then
                .error (.badRequest "Block contains external network(s) which overlap the target external network.")
              else if overlapSet (cidrSet [c]) resvSet then
                .error (.badRequest "Block contains unfulfilled reservation(s) which overlap the target external network.")
              else if overlapSet (cidrSet [c]) blockSet then
                .error (.badRequest "Block contains a virtual network(s) or hub(s) which overlap the target external network.")
              else .ok c
            | none =>
              match (iterCidrs availableSet).find? (fun c => decide (c.len ≤ req.size)) with
              | none => .error (.internal "Network of requested size unavailable in target block.")
              | some avb =>
                match (avb.subnets req.size).head? with
                | some nc => .ok nc
                | none => .error (.pyError "IndexError: list index out of range")
          match nextCidr with
          | .error e => (.error e, store)
          | .ok nc =>
            let newExt : ExtNet := { name := req.name, desc := req.desc, cidr := nc, subnets := [] }
            let newBlocks := updateBlockFirst doc.blocks blockName
              (fun b => { b with externals := b.externals ++ [newExt] })
            let doc2 := { doc with blocks := newBlocks }
            (.ok newExt, cosmosReplace store doc doc2)

/-- Settle a reservation in place: stamp settledOn/settledBy and set the
cancelledByUser status. -/
def stampResv (now : Nat) (userName : String) (r : Reservation) : Reservation :=
  { r with settledOn := some now, settledBy := some userName, status := "cancelledByUser" }

/-- Stamp the first reservation with the given id (`next(...)` index lookup
followed by three in-place field updates). -/
def stampFirst (now : Nat) (userName : String) : List Reservation → String → List Reservation
  | [], _ => []
  | r :: rs, id =>
    if r.rid = id then stampResv now userName r :: rs
    else r :: stampFirst now userName rs id

/-- Python `len(set(l)) == len(l)`. -/
def distinctB : List String → Bool
  | [] => true
  | x :: xs => !(xs.contains x) && distinctB xs

/-- DELETE /spaces/s/blocks/b/reservations, bulk (space.py 3074-3137),
document-level: the returned document is the one passed to cosmos_replace. -/
def delete_block_reservations (doc : SpaceDoc) (blockName : String)
    (req : List String) (userName : String) (isAdmin : Bool) (now : Nat) :
    Except ApiErr SpaceDoc :=
  match findBlockIn doc.blocks blockName with
  | none => .error (.badRequest "Invalid block name.")
  | some tb =>
    if ¬ distinctB req then
      .error (.badRequest "List contains one or more duplicate ids.")
    else if ¬ req.all (fun id => (tb.resv.map (fun r => r.rid)).contains id) then
      .error (.badRequest "List contains one or more invalid ids.")
    else if ¬ isAdmin ∧
        (tb.resv.filter (fun r => req.contains r.rid && decide (r.createdBy ≠ userName))) ≠ [] then
      .error (.forbidden "Users can only delete their own reservations.")
    else
      let filteredReq := (tb.resv.filter (fun r => r.settledOn.isNone && req.contains r.rid)).map (fun r => r.rid)
      let newResv := filteredReq.foldl (stampFirst now userName) tb.resv
      let newBlocks := updateBlockFirst doc.blocks blockName (fun b => { b with resv := newResv })
      .ok { doc with blocks := newBlocks }

/-- DELETE /spaces/s/blocks/b/reservations/id (space.py 3198-3239). The source
calls cosmos_replace only when the reservation was still unsettled, hence the
Option result (`none` = no write happened). -/
def delete_block_reservation_single (doc : SpaceDoc) (blockName resvId : String)
    (userName : String) (isAdmin : Bool) (now : Nat) :
    Except ApiErr (Option SpaceDoc) :=
  match findBlockIn doc.blocks blockName with
  | none => .error (.badRequest "Invalid block name.")
  | some tb =>
    match tb.resv.find? (fun r => r.rid == resvId) with
    | none => .error (.badRequest "Invalid reservation ID.")
    | some tr =>
      if ¬ isAdmin ∧ tr.createdBy ≠ userName then
        .error (.forbidden "Users can only delete their own reservations.")
      else if tr.settledOn.isNone then
        let newBlocks := updateBlockFirst doc.blocks blockName
          (fun b => { b with resv := stampFirst now userName b.resv resvId })
        .ok (some { doc with blocks := newBlocks })
      else .ok none

/-- Body of POST /spaces/s/reservations. -/
structure SpaceCIDRReq where
  blocks : List String
  size : Nat
  desc : String
  reverse_search : Bool
  smallest_cidr : Bool
deriving DecidableEq

/-- One iteration of the block walk of create_multi_block_reservation
(space.py 934-962). The state carries (available_block,
available_block_name, target_block name); a processed iteration always
reassigns target_block, and iterations after a success are skipped by the
`if not available_block` guard. -/
def multiStep (doc : SpaceDoc) (netList : List NetInfo) (req : SpaceCIDRReq)
    (st : Option Cidr × Option String × Option String) (blockName : String) :
    Except ApiErr (Option Cidr × Option String × Option String) :=
  match st.1 with
  | some _ => pure st
  | none =>
    match findBlockIn doc.blocks blockName with
    | none => .error (.pyError "TypeError: NoneType is not subscriptable")
    | some tb =>
      let availableSet := availableSetOf netList tb
      let ab := pickAvailableBlockMulti availableSet req.size req.reverse_search req.smallest_cidr
      pure (ab, if ab.isSome then some blockName else none, some blockName)

/-- The block walk of create_multi_block_reservation (space.py 931-962). -/
def multiLoop (doc : SpaceDoc) (netList : List NetInfo) (req : SpaceCIDRReq) :
    Except ApiErr (Option Cidr × Option String × Option String) :=
  req.blocks.foldlM (multiStep doc netList req) (none, none, none)

/-- POST /spaces/s/reservations (space.py 889-992), document-level; returns
the written document, the new reservation and the response block name. -/
def create_multi_block_reservation (doc : SpaceDoc) (netList : List NetInfo)
    (req : SpaceCIDRReq) (creator : String) (now : Nat) (newId : String) :
    Except ApiErr (SpaceDoc × Reservation × Option String) :=
  let invalidBlocks := req.blocks.filter (fun bn => !(doc.blocks.map (fun b => b.name)).contains bn)
  if invalidBlocks ≠ [] then
    .error (.badRequest "Invalid Block(s) in Block list.")
  else
    match multiLoop doc netList req with
    | .error e => .error e
    | .ok (none, _, _) =>
      .error (.internal "Network of requested size unavailable in target block(s).")
    | .ok (some ab, abn, tbn) =>
      match subnetSel ab req.size req.reverse_search with
      | none => .error (.pyError "IndexError: list index out of range")
      | some nc =>
        let r : Reservation :=
          { rid := newId, cidr := nc, desc := req.desc, createdOn := now,
            createdBy := creator, settledOn := none, settledBy := none, status := "wait" }
        let newBlocks := updateBlockFirst doc.blocks (tbn.getD "")
          (fun b => { b with resv := b.resv ++ [r] })
        .ok ({ doc with blocks := newBlocks }, r, abn)

/-- POST /spaces/s/blocks/b/networks (space.py 1483-1552), document-level.
Only the first prefix of the attached vnet that falls inside the block CIDR
is checked against the block's claimed ranges. -/
def create_block_net (doc : SpaceDoc) (blockName : String) (netList : List NetInfo)
    (vnetId : String) : Except ApiErr SpaceDoc :=
  match findBlockIn doc.blocks blockName with
  | none => .error (.badRequest "Invalid block name.")
  | some tb =>
    if (tb.vnets.map (fun v => v.vid)).contains vnetId then
      .error (.badRequest "Network already exists in block.")
    else
      match netList.find? (fun x => lowerEq x.nid vnetId) with
      | none => .error (.badRequest "Invalid network ID.")
      | some targetNet =>
        match targetNet.prefixes.find? (fun p => p.inNet tb.cidr) with
        | none => .error (.badRequest "Network CIDR not within block CIDR.")
        | some targetCidr =>
          let blockNetCidrs :=
            ((tb.resv.filter (fun r => r.settledOn.isNone)).map (fun r => r.cidr))
            ++ (tb.externals.map (fun e => e.cidr))
            ++ (tb.vnets.flatMap (vnetInBlockPrefs netList tb))
          if overlapSet (cidrSet blockNetCidrs) (cidrSet [targetCidr]) then
            .error (.badRequest "Block already contains network(s) and/or reservation(s) within the CIDR range of target network.")
          else
            let newBlocks := updateBlockFirst doc.blocks blockName
              (fun b => { b with vnets := b.vnets ++ [{ vid := vnetId, active := true }] })
            .ok { doc with blocks := newBlocks }

/-- GET /spaces/s/blocks/b/available (space.py 1361-1421). Returns the
surviving candidate inventory nets; the trailing loop deletes a candidate
attached elsewhere only when both the space and the block name differ and the
candidate's index is truthy (`if net_index:` skips index 0). -/
def available_block_nets (spaces : List SpaceDoc) (spaceName blockName : String)
    (netList : List NetInfo) : Except ApiErr (List NetInfo) :=
  match spaces.find? (fun x => lowerEq x.name spaceName) with
  | none => .error (.badRequest "Invalid space name.")
  | some tsp =>
    match findBlockIn tsp.blocks blockName with
    | none => .error (.badRequest "Invalid block name.")
    | some tb =>
      let resvCidrs := cidrSet ((tb.resv.filter (fun r => r.settledOn.isNone)).map (fun r => r.cidr))
      let extCidrs := cidrSet (tb.externals.map (fun e => e.cidr))
      let excludedCidrs := unionSet resvCidrs extCidrs
      let availableVnets := netList.foldl
        (fun acc net =>
          let valid : List Cidr := net.prefixes.filter
            (fun x => x.inNet tb.cidr && !(overlapSet (cidrSet [x]) excludedCidrs))
          if valid ≠ [] then acc ++ [{ net with prefixes := valid }] else acc) []
      let finalVnets := spaces.foldl
        (fun acc sp =>
          sp.blocks.foldl
            (fun acc bl =>
              bl.vnets.foldl
                (fun acc v =>
                  if sp.name ≠ spaceName ∧ bl.name ≠ blockName then
                    match acc.findIdx? (fun item => item.nid == v.vid) with
                    | some i => if i ≠ 0 then acc.eraseIdx i else acc
                    | none => acc
                  else acc) acc) acc) availableVnets
      .ok finalVnets

/-- Subscripting a Python str with a string key ("space['used']" where space
is the str path parameter of get_space). -/
def strGetItem (_s : String) (_key : String) : Except ApiErr Nat :=
  .error (.pyError "TypeError: string indices must be integers")

/-- Inventory lookup of the expand=false utilization path, which compares ids
exactly (`i['id'] == net['id']`). -/
def vnetInBlockPrefsExact (netList : List NetInfo) (b : Block) (v : VNetRef) : List Cidr :=
  match netList.find? (fun x => x.nid == v.vid) with
  | some t => t.prefixes.filter (fun p => p.inNet b.cidr)
  | none => []

/-- The utilization accumulation of GET /spaces/s?utilization=true
(space.py 659-741, expand=false path), returning the space-level
(size, used) pair. The externals loop executes `space['used'] += ...`
where `space` is still the str path parameter. -/
def get_space_utilization (store : Store) (spaceName : String)
    (netList : List NetInfo) : Except ApiErr (Nat × Nat) :=
  match findSpace store spaceName with
  | none => .error (.badRequest "Invalid space name.")
  | some doc =>
    doc.blocks.foldlM
      (fun acc b =>
        let sizeAcc := acc.1 + b.cidr.size
        let netPrefs := b.vnets.flatMap (vnetInBlockPrefsExact netList b)
        let usedAcc := acc.2 + (netPrefs.map Cidr.size).sum
        match b.externals with
        | [] => pure (sizeAcc, usedAcc)
        | _ :: _ =>
          match strGetItem spaceName "used" with
          | .error err => .error err
          | .ok n => .ok (sizeAcc, usedAcc + n))
      ((0 : Nat), (0 : Nat))

/-- The per-block harvest of valid_block_cidr_update (space.py 144-158): all
prefixes of the block's inventory vnets (exact-id lookup, no in-block
filter), then the externals, then the unsettled reservations. -/
def validatorHarvest (netList : List NetInfo) (b : Block) : List Cidr :=
  (b.vnets.flatMap (fun v =>
    match netList.find? (fun i => i.nid == v.vid) with
    | some t => t.prefixes
    | none => []))
  ++ (b.externals.map (fun e => e.cidr))
  ++ ((b.resv.filter (fun r => r.settledOn.isNone)).map (fun r => r.cidr))

/-- valid_block_cidr_update (space.py 123-170); `blocks` models the SQL result
for the space's blocks and `netList` the inventory. Note the target block is
found case-insensitively while the harvesting loop compares names exactly,
the equality shortcut precedes canonicalization, and the vnet prefixes are
collected without the in-block filter (exact-id inventory lookup). -/
def valid_block_cidr_update (blocks : List Block) (blockName : String)
    (netList : List NetInfo) (c : Cidr) : Except ApiErr Bool :=
  let targetBlock := blocks.find? (fun x => lowerEq x.name blockName)
  let shortCircuit : Option (Except ApiErr Bool) :=
    match targetBlock with
    | some tb =>
      if c = tb.cidr then some (.ok true)
      else if ¬ c.canonicalB then
        some (.error (.badRequest "Invalid CIDR value; use the canonical form instead."))
      else none
    | none => none
  match shortCircuit with
  | some r => r
  | none =>
    let acc := blocks.foldl
      (fun (acc : List Cidr × List Cidr) b =>
        if b.name ≠ blockName then (acc.1 ++ [b.cidr], acc.2)
        else (acc.1, acc.2 ++ validatorHarvest netList b))
      ([], [])
    let updateSet := cidrSet [c]
    let spaceSet := cidrSet acc.1
    let blockSet := cidrSet acc.2
    if overlapSet spaceSet updateSet then
      .error (.badRequest "Updated CIDR cannot overlap other Block CIDRs within the Space.")
    else if ¬ subsetSet blockSet updateSet then .ok false
    else .ok true

/-! ### Semantics of the interval-set operations -/

theorem memSet_nil (x : Nat) : ¬ memSet [] x := by simp [memSet]

theorem memSet_cons {i : Ival} {s : IpSet} {x : Nat} :
    memSet (i :: s) x ↔ (i.lo ≤ x ∧ x < i.hi) ∨ memSet s x := by
  simp [memSet]

theorem memSet_append {a b : IpSet} {x : Nat} :
    memSet (a ++ b) x ↔ memSet a x ∨ memSet b x := by
  constructor
  · rintro ⟨i, hi, hp⟩
    rcases List.mem_append.mp hi with h | h
    · exact Or.inl ⟨i, h, hp⟩
    · exact Or.inr ⟨i, h, hp⟩
  · rintro (⟨i, hi, hp⟩ | ⟨i, hi, hp⟩)
    · exact ⟨i, List.mem_append.mpr (Or.inl hi), hp⟩
    · exact ⟨i, List.mem_append.mpr (Or.inr hi), hp⟩

theorem memSet_perm {a b : IpSet} (h : a.Perm b) (x : Nat) :
    memSet a x ↔ memSet b x := by
  unfold memSet
  exact ⟨fun ⟨i, hi, hp⟩ => ⟨i, h.mem_iff.mp hi, hp⟩,
    fun ⟨i, hi, hp⟩ => ⟨i, h.mem_iff.mpr hi, hp⟩⟩

theorem mergeIvals_head_lo (i : Ival) (rest : List Ival) :
    (mergeIvals (i :: rest)).head?.map Ival.lo = some i.lo := by
  show (match mergeIvals rest with
    | [] => [i]
    | j :: rest2 =>
      if j.lo ≤ i.hi then (⟨i.lo, max i.hi j.hi⟩ : Ival) :: rest2
      else i :: j :: rest2).head?.map Ival.lo = some i.lo
  cases mergeIvals rest with
  | nil => rfl
  | cons j r2 =>
    by_cases hj : j.lo ≤ i.hi <;> simp [hj]

theorem memSet_mergeIvals {l : List Ival} (hs : l.Sorted ivLE) :
    ∀ x, memSet (mergeIvals l) x ↔ memSet l x := by
  induction l with
  | nil => intro x; simp [mergeIvals]
  | cons i rest ih =>
    intro x
    have hrest : rest.Sorted ivLE := hs.of_cons
    have ihx := ih hrest
    have hdef : mergeIvals (i :: rest) = match mergeIvals rest with
      | [] => [i]
      | j :: rest2 =>
        if j.lo ≤ i.hi then (⟨i.lo, max i.hi j.hi⟩ : Ival) :: rest2
        else i :: j :: rest2 := rfl
    rw [memSet_cons]
    cases hr : mergeIvals rest with
    | nil =>
      rw [hdef, hr]
      have hnone : ¬ memSet rest x := fun hc => by
        have := (ihx x).mpr hc
        rw [hr] at this
        exact memSet_nil x this
      rw [memSet_cons]
      simp [memSet_nil, hnone]
    | cons j r2 =>
      obtain ⟨r0, rest0, hre⟩ : ∃ r0 rest0, rest = r0 :: rest0 := by
        cases rest with
        | nil => simp [mergeIvals] at hr
        | cons a b => exact ⟨a, b, rfl⟩
      have hjlo : j.lo = r0.lo := by
        have := mergeIvals_head_lo r0 rest0
        rw [← hre, hr] at this
        simpa using this
      have hij : i.lo ≤ j.lo := by
        rw [hjlo]
        have := (List.pairwise_cons.mp hs).1 r0 (by rw [hre]; exact List.mem_cons_self _ _)
        exact this
      have hrx : memSet rest x ↔ ((j.lo ≤ x ∧ x < j.hi) ∨ memSet r2 x) := by
        rw [← ihx x, hr, memSet_cons]
      have heq : mergeIvals (i :: rest) =
          if j.lo ≤ i.hi then (⟨i.lo, max i.hi j.hi⟩ : Ival) :: r2
          else i :: j :: r2 := by
        rw [hdef, hr]
      rw [heq]
      by_cases hj : j.lo ≤ i.hi
      · rw [if_pos hj, memSet_cons]
        have key : (i.lo ≤ x ∧ x < max i.hi j.hi) ↔
            ((i.lo ≤ x ∧ x < i.hi) ∨ (j.lo ≤ x ∧ x < j.hi)) := by omega
        rw [key, hrx]
        tauto
      · rw [if_neg hj, memSet_cons, memSet_cons, hrx]

theorem memSet_normalizeSet (s : IpSet) (x : Nat) :
    memSet (normalizeSet s) x ↔ memSet s x := by
  unfold normalizeSet
  rw [memSet_mergeIvals (List.sorted_insertionSort ivLE s) x]
  exact memSet_perm (List.perm_insertionSort ivLE s) x

theorem memSet_ivalSub (i j : Ival) (x : Nat) :
    memSet (ivalSub i j) x ↔
      ((i.lo ≤ x ∧ x < i.hi) ∧ ¬ (j.lo ≤ x ∧ x < j.hi)) := by
  unfold ivalSub
  by_cases h1 : i.lo < min i.hi j.lo <;> by_cases h2 : max i.lo j.hi < i.hi <;>
    simp [h1, h2, memSet_append, memSet_cons, memSet_nil, memSet] <;> omega

theorem memSet_flatMapIval {α : Type} (l : List α) (f : α → List Ival) (x : Nat) :
    memSet (l.flatMap f) x ↔ ∃ a ∈ l, memSet (f a) x := by
  unfold memSet
  constructor
  · rintro ⟨i, hi, hp⟩
    obtain ⟨a, ha, hia⟩ := List.mem_flatMap.mp hi
    exact ⟨a, ha, i, hia, hp⟩
  · rintro ⟨a, ha, i, hia, hp⟩
    exact ⟨i, List.mem_flatMap.mpr ⟨a, ha, hia⟩, hp⟩

theorem memSet_diffSet (a b : IpSet) (x : Nat) :
    memSet (diffSet a b) x ↔ (memSet a x ∧ ¬ memSet b x) := by
  induction b generalizing a with
  | nil =>
    have : diffSet a [] = a := rfl
    rw [this]
    simp [memSet_nil]
  | cons j bs ih =>
    have hstep : diffSet a (j :: bs) = diffSet (a.flatMap (fun i => ivalSub i j)) bs := rfl
    rw [hstep, ih, memSet_flatMapIval, memSet_cons]
    constructor
    · rintro ⟨⟨i, hi, hmem⟩, hnb⟩
      rw [memSet_ivalSub] at hmem
      exact ⟨⟨i, hi, hmem.1⟩, by tauto⟩
    · rintro ⟨⟨i, hi, hmem⟩, hnot⟩
      refine ⟨⟨i, hi, ?_⟩, by tauto⟩
      rw [memSet_ivalSub]
      exact ⟨hmem, by tauto⟩

theorem memSet_unionSet (a b : IpSet) (x : Nat) :
    memSet (unionSet a b) x ↔ (memSet a x ∨ memSet b x) := by
  unfold unionSet
  rw [memSet_normalizeSet, memSet_append]

theorem memSet_symmDiffSet (a b : IpSet) (x : Nat) :
    memSet (symmDiffSet a b) x ↔
      ((memSet a x ∧ ¬ memSet b x) ∨ (memSet b x ∧ ¬ memSet a x)) := by
  unfold symmDiffSet
  rw [memSet_unionSet, memSet_diffSet, memSet_diffSet]

theorem memSet_symmDiff_of_subset {a b : IpSet}
    (h : ∀ y, memSet b y → memSet a y) (x : Nat) :
    memSet (symmDiffSet a b) x ↔ (memSet a x ∧ ¬ memSet b x) := by
  rw [memSet_symmDiffSet]
  constructor
  · rintro (hc | hc)
    · exact hc
    · exact absurd (h x hc.1) hc.2
  · exact Or.inl

theorem ivalSub_nonempty {i j k : Ival} (hk : k ∈ ivalSub i j) : k.lo < k.hi := by
  unfold ivalSub at hk
  rw [List.mem_append] at hk
  rcases hk with h | h
  · by_cases h1 : i.lo < min i.hi j.lo
    · rw [if_pos h1, List.mem_singleton] at h
      subst h
      simpa using h1
    · rw [if_neg h1] at h
      simp at h
  · by_cases h2 : max i.lo j.hi < i.hi
    · rw [if_pos h2, List.mem_singleton] at h
      subst h
      simpa using h2
    · rw [if_neg h2] at h
      simp at h

theorem diffSet_nonempty {a b : IpSet} (ha : ∀ i ∈ a, i.lo < i.hi) :
    ∀ k ∈ diffSet a b, k.lo < k.hi := by
  induction b generalizing a with
  | nil => exact ha
  | cons j bs ih =>
    have hstep : diffSet a (j :: bs) = diffSet (a.flatMap (fun i => ivalSub i j)) bs := rfl
    rw [hstep]
    refine ih ?_
    intro k hk
    obtain ⟨i, _, hik⟩ := List.mem_flatMap.mp hk
    exact ivalSub_nonempty hik

theorem subsetSet_iff {a b : IpSet} (ha : ∀ i ∈ a, i.lo < i.hi) :
    subsetSet a b = true ↔ ∀ x, memSet a x → memSet b x := by
  unfold subsetSet
  rw [List.isEmpty_iff]
  constructor
  · intro hempty x hx
    by_contra hbx
    have : memSet (diffSet a b) x := (memSet_diffSet a b x).mpr ⟨hx, hbx⟩
    rw [hempty] at this
    exact memSet_nil x this
  · intro hsub
    by_contra hne
    obtain ⟨k, hk⟩ : ∃ k, k ∈ diffSet a b := by
      cases hd : diffSet a b with
      | nil => exact absurd hd hne
      | cons k l => exact ⟨k, List.mem_cons_self _ _⟩
    have hklo : memSet (diffSet a b) k.lo :=
      ⟨k, hk, le_refl _, diffSet_nonempty ha k hk⟩
    have := (memSet_diffSet a b k.lo).mp hklo
    exact this.2 (hsub k.lo this.1)

theorem cidrSet_nonempty (l : List Cidr) : ∀ i ∈ cidrSet l, i.lo < i.hi := by
  intro i hi
  obtain ⟨c, _, hci⟩ := List.mem_map.mp hi
  subst hci
  have : 0 < c.size := Nat.pos_pow_of_pos _ (by norm_num)
  simpa [Cidr.toIval] using this

theorem memSet_cidrSet (l : List Cidr) (x : Nat) :
    memSet (cidrSet l) x ↔ ∃ c ∈ l, c.netBase ≤ x ∧ x < c.netBase + c.size := by
  unfold memSet cidrSet
  constructor
  · rintro ⟨i, hi, hp⟩
    obtain ⟨c, hc, hci⟩ := List.mem_map.mp hi
    subst hci
    exact ⟨c, hc, hp⟩
  · rintro ⟨c, hc, hp⟩
    exact ⟨c.toIval, List.mem_map.mpr ⟨c, hc, rfl⟩, hp⟩

theorem mem_of_inNet {c d : Cidr} (h : c.inNet d = true) {x : Nat}
    (hx : c.netBase ≤ x ∧ x < c.netBase + c.size) :
    d.netBase ≤ x ∧ x < d.netBase + d.size := by
  unfold Cidr.inNet at h
  rw [decide_eq_true_eq] at h
  omega

/-! ### Semantics of the allocation helpers -/

theorem listMaxNat_mem {l : List Nat} {m : Nat} (h : listMaxNat l = some m) : m ∈ l := by
  induction l generalizing m with
  | nil => simp [listMaxNat] at h
  | cons n ns ih =>
    unfold listMaxNat at h
    cases hns : listMaxNat ns with
    | none =>
      rw [hns] at h
      simp at h
      simp [h]
    | some m2 =>
      rw [hns] at h
      simp at h
      rcases Nat.le_total n m2 with hle | hle
      · have hm : m = m2 := by omega
        exact List.mem_cons_of_mem _ (hm ▸ ih hns)
      · have hm : m = n := by omega
        rw [hm]
        exact List.mem_cons_self _ _

theorem listMaxNat_ge {l : List Nat} {m : Nat} (h : listMaxNat l = some m) :
    ∀ a ∈ l, a ≤ m := by
  induction l generalizing m with
  | nil => simp
  | cons n ns ih =>
    unfold listMaxNat at h
    intro a ha
    cases hns : listMaxNat ns with
    | none =>
      rw [hns] at h
      simp at h
      cases hns2 : ns with
      | nil =>
        rw [hns2] at ha
        simp at ha
        omega
      | cons b bs => rw [hns2] at hns; simp [listMaxNat] at hns
    | some m2 =>
      rw [hns] at h
      simp at h
      rcases List.mem_cons.mp ha with h1 | h1
      · omega
      · have := ih hns a h1
        omega

theorem listMaxNat_isSome {l : List Nat} (h : l ≠ []) : (listMaxNat l).isSome := by
  cases l with
  | nil => exact absurd rfl h
  | cons n ns => simp [listMaxNat]

theorem subnets_head {c : Cidr} {n : Nat} (h : c.len ≤ n) :
    (c.subnets n).head? = some ⟨c.base, n⟩ := by
  unfold Cidr.subnets
  rw [if_neg (by omega)]
  obtain ⟨k, hk⟩ : ∃ k, 2 ^ (n - c.len) = k + 1 :=
    ⟨2 ^ (n - c.len) - 1, by have : 0 < 2 ^ (n - c.len) := Nat.pos_pow_of_pos _ (by norm_num); omega⟩
  rw [hk, List.range_succ_eq_map]
  simp

theorem subnets_getLast {c : Cidr} {n : Nat} (h : c.len ≤ n) :
    (c.subnets n).getLast? =
      some ⟨c.base + (2 ^ (n - c.len) - 1) * 2 ^ (32 - n), n⟩ := by
  unfold Cidr.subnets
  rw [if_neg (by omega)]
  obtain ⟨k, hk⟩ : ∃ k, 2 ^ (n - c.len) = k + 1 :=
    ⟨2 ^ (n - c.len) - 1, by have : 0 < 2 ^ (n - c.len) := Nat.pos_pow_of_pos _ (by norm_num); omega⟩
  rw [hk, List.range_succ, List.map_append]
  have hval : k = 2 ^ (n - c.len) - 1 := by omega
  simp [hval]

theorem blockI3_all {netList : List NetInfo} {b : Block} (h : blockI3 netList b = true) :
    ∀ c ∈ blockAllCidrs netList b, c.inNet b.cidr = true := by
  unfold blockI3 at h
  rw [Bool.and_eq_true, List.all_eq_true] at h
  exact h.1

theorem memSet_availableSetOf {netList : List NetInfo} {b : Block}
    (hI3 : blockI3 netList b = true) (x : Nat) :
    memSet (availableSetOf netList b) x ↔
      (memSet (cidrSet [b.cidr]) x ∧ ¬ memSet (cidrSet (blockAllCidrs netList b)) x) := by
  apply memSet_symmDiff_of_subset
  intro y hy
  rw [memSet_cidrSet] at hy ⊢
  obtain ⟨c, hc, hcy⟩ := hy
  exact ⟨b.cidr, List.mem_singleton.mpr rfl, mem_of_inNet (blockI3_all hI3 c hc) hcy⟩

theorem filter_head_of_ne_nil {α : Type} {l : List α} {p : α → Bool}
    (h : l.filter p ≠ []) :
    ∃ x, (l.filter p).head? = some x ∧ x ∈ l ∧ p x = true := by
  cases hf : l.filter p with
  | nil => exact absurd hf h
  | cons x xs =>
    have hx : x ∈ l.filter p := by rw [hf]; exact List.mem_cons_self _ _
    exact ⟨x, rfl, (List.mem_filter.mp hx).1, (List.mem_filter.mp hx).2⟩

theorem subnet_withinR {c : Cidr} {n j : Nat} (hlen : c.len ≤ n) (hn : n ≤ 32)
    (hj : j < 2 ^ (n - c.len)) :
    Cidr.withinR ⟨c.base + j * 2 ^ (32 - n), n⟩ c := by
  have pow_eq : 2 ^ (n - c.len) * 2 ^ (32 - n) = 2 ^ (32 - c.len) := by
    rw [← pow_add]
    congr 1
    omega
  have key : (j + 1) * 2 ^ (32 - n) ≤ 2 ^ (n - c.len) * 2 ^ (32 - n) :=
    Nat.mul_le_mul_right _ (by omega)
  constructor
  · exact Nat.le_add_right _ _
  · show c.base + j * 2 ^ (32 - n) + 2 ^ (32 - n) ≤ c.base + 2 ^ (32 - c.len)
    calc c.base + j * 2 ^ (32 - n) + 2 ^ (32 - n)
        = c.base + (j + 1) * 2 ^ (32 - n) := by ring
      _ ≤ c.base + 2 ^ (n - c.len) * 2 ^ (32 - n) := Nat.add_le_add_left key _
      _ = c.base + 2 ^ (32 - c.len) := by rw [pow_eq]

/-! ### Claim theorems -/

/-- C1: for a block whose document satisfies I3, a size-only reservation
request in first-fit mode scans the maximal free prefixes of the block's free
set (block.cidr minus in-block vnet prefixes, externals and unsettled
reservations; first conjunct) in ascending iter_cidrs order when
reverse_search is false and in descending order when it is true, picks the
first prefix whose length is at most size, and returns its first
(respectively last) size-subnet; the created reservation has prefixLen equal
to size and its CIDR is a subset of the chosen free prefix. -/
theorem C1_by_size_first_fit
    (store : Store) (spaceName blockName : String) (netList : List NetInfo)
    (req : BlockCIDRReq) (creator : String) (now : Nat) (newId : String)
    (doc : SpaceDoc) (tb : Block)
    (hsp : findSpace store spaceName = some doc)
    (hbl : findBlockIn doc.blocks blockName = some tb)
    (hI3 : blockI3 netList tb = true)
    (hcidr : req.cidr = none)
    (hsm : req.smallest_cidr = false)
    (hsz : req.size ≤ 32) :
    (∀ x, memSet (availableSetOf netList tb) x ↔
        (memSet (cidrSet [tb.cidr]) x ∧
          ¬ memSet (cidrSet (blockAllCidrs netList tb)) x)) ∧
    (req.reverse_search = false →
      (match (iterCidrs (availableSetOf netList tb)).find?
          (fun c => decide (c.len ≤ req.size)) with
       | some p =>
         ∃ r : Reservation,
           (create_block_reservation store spaceName blockName netList req
             creator now newId).1 = .ok r ∧
           (p.subnets req.size).head? = some r.cidr ∧
           r.cidr.len = req.size ∧ r.cidr.withinR p ∧ r.status = "wait"
       | none =>
         (create_block_reservation store spaceName blockName netList req
           creator now newId).1 =
           .error (.internal "Network of requested size unavailable in target block."))) ∧
    (req.reverse_search = true →
      (match (iterCidrs (availableSetOf netList tb)).reverse.find?
          (fun c => decide (c.len ≤ req.size)) with
       | some p =>
         ∃ r : Reservation,
           (create_block_reservation store spaceName blockName netList req
             creator now newId).1 = .ok r ∧
           (p.subnets req.size).getLast? = some r.cidr ∧
           r.cidr.len = req.size ∧ r.cidr.withinR p ∧ r.status = "wait"
       | none =>
         (create_block_reservation store spaceName blockName netList req
           creator now newId).1 =
           .error (.internal "Network of requested size unavailable in target block."))) := by
  refine ⟨memSet_availableSetOf hI3, ?_, ?_⟩
  · intro hrev
    have hpick : pickAvailableBlock (availableSetOf netList tb) req.size false false
        = .ok ((iterCidrs (availableSetOf netList tb)).find?
            (fun c => decide (c.len ≤ req.size))) := rfl
    cases hfind : (iterCidrs (availableSetOf netList tb)).find?
        (fun c => decide (c.len ≤ req.size)) with
    | none =>
      simp [create_block_reservation, hsp, hbl, hcidr, hrev, hsm, hpick, hfind]
    | some p =>
      have hplen : p.len ≤ req.size := by
        have := List.find?_some hfind
        simpa using this
      have hhead : (p.subnets req.size).head? = some ⟨p.base, req.size⟩ :=
        subnets_head hplen
      refine ⟨⟨newId, ⟨p.base, req.size⟩, req.desc, now, creator, none, none, "wait"⟩,
        ?_, by rw [hhead], rfl, ?_, rfl⟩
      · simp [create_block_reservation, hsp, hbl, hcidr, hrev, hsm, hpick, hfind,
          subnetSel, hhead]
      · have h0 : 0 < 2 ^ (req.size - p.len) := Nat.pos_pow_of_pos _ (by norm_num)
        have := subnet_withinR (c := p) (n := req.size) (j := 0) hplen hsz h0
        simpa using this
  · intro hrev
    have hpick : pickAvailableBlock (availableSetOf netList tb) req.size true false
        = .ok ((iterCidrs (availableSetOf netList tb)).reverse.find?
            (fun c => decide (c.len ≤ req.size))) := rfl
    cases hfind : (iterCidrs (availableSetOf netList tb)).reverse.find?
        (fun c => decide (c.len ≤ req.size)) with
    | none =>
      simp [create_block_reservation, hsp, hbl, hcidr, hrev, hsm, hpick, hfind]
    | some p =>
      have hplen : p.len ≤ req.size := by
        have := List.find?_some hfind
        simpa using this
      have hlast : (p.subnets req.size).getLast? =
          some ⟨p.base + (2 ^ (req.size - p.len) - 1) * 2 ^ (32 - req.size), req.size⟩ :=
        subnets_getLast hplen
      refine ⟨⟨newId, ⟨p.base + (2 ^ (req.size - p.len) - 1) * 2 ^ (32 - req.size), req.size⟩,
          req.desc, now, creator, none, none, "wait"⟩,
        ?_, by rw [hlast], rfl, ?_, rfl⟩
      · simp [create_block_reservation, hsp, hbl, hcidr, hrev, hsm, hpick, hfind,
          subnetSel, hlast]
      · have h0 : 0 < 2 ^ (req.size - p.len) := Nat.pos_pow_of_pos _ (by norm_num)
        exact subnet_withinR (c := p) (n := req.size)
          (j := 2 ^ (req.size - p.len) - 1) hplen hsz (by omega)

/-- Example fixture: an empty 10.0.0.0/16 block (10.0.0.0 = 167772160). -/
def exBlockEmpty : Block :=
  { name := "blk1", cidr := ⟨167772160, 16⟩, vnets := [], externals := [], resv := [] }

/-- Example fixture: a space holding the empty block. -/
def exDocEmpty : SpaceDoc :=
  { sid := "sid1", name := "corp", desc := "main", blocks := [exBlockEmpty] }

/-- Witness for C1 at the spec's reverse-search scenario: block 10.0.0.0/16,
request size 24 with reverse_search, giving 10.0.255.0/24 (167837440). -/
theorem C1_by_size_first_fit_witness :
    blockI3 [] exBlockEmpty = true ∧
    ∃ r : Reservation,
      (create_block_reservation [exDocEmpty] "corp" "blk1" []
        ⟨24, none, "bu1", true, false⟩ "user1" 5 "rid1").1 = .ok r ∧
      r.cidr = ⟨167837440, 24⟩ := by
  have h := C1_by_size_first_fit [exDocEmpty] "corp" "blk1" []
    ⟨24, none, "bu1", true, false⟩ "user1" 5 "rid1" exDocEmpty exBlockEmpty
    (by decide) (by decide) (by decide) rfl rfl (by decide)
  refine ⟨by decide, ?_⟩
  have h3 := h.2.2 rfl
  dsimp only at h3
  have hfind : (iterCidrs (availableSetOf [] exBlockEmpty)).reverse.find?
      (fun c => decide (c.len ≤ (24 : Nat))) = some ⟨167772160, 16⟩ := by decide
  rw [hfind] at h3
  obtain ⟨r, hres, hlast, _, _, _⟩ := h3
  have hval : ((⟨167772160, 16⟩ : Cidr).subnets 24).getLast? =
      some ⟨167837440, 24⟩ := by decide
  rw [hval] at hlast
  exact ⟨r, hres, ((Option.some.injEq _ _).mp hlast).symm⟩

/-- C2: for a by-size request with smallest_cidr, the allocator filters the
scanned free maximal prefixes (ascending when reverse_search is false,
descending when true) to those of length at most size, selects the first
candidate carrying the maximum prefix length, and carves the same end of it
as the first-fit mode; the resulting reservation has prefixLen equal to size
and lies inside the chosen candidate. -/
theorem C2_by_size_smallest
    (store : Store) (spaceName blockName : String) (netList : List NetInfo)
    (req : BlockCIDRReq) (creator : String) (now : Nat) (newId : String)
    (doc : SpaceDoc) (tb : Block) (scan : List Cidr)
    (hsp : findSpace store spaceName = some doc)
    (hbl : findBlockIn doc.blocks blockName = some tb)
    (hcidr : req.cidr = none)
    (hsm : req.smallest_cidr = true)
    (hsz : req.size ≤ 32)
    (hscan : scan = if req.reverse_search then
        (iterCidrs (availableSetOf netList tb)).reverse
      else iterCidrs (availableSetOf netList tb))
    (hcand : scan.filter (fun c => decide (c.len ≤ req.size)) ≠ []) :
    ∃ m p r,
      listMaxNat ((scan.filter (fun c => decide (c.len ≤ req.size))).map Cidr.len) = some m ∧
      (∀ q ∈ scan.filter (fun c => decide (c.len ≤ req.size)), q.len ≤ m) ∧
      ((scan.filter (fun c => decide (c.len ≤ req.size))).filter
        (fun c => decide (c.len = m))).head? = some p ∧
      p.len = m ∧ p ∈ scan.filter (fun c => decide (c.len ≤ req.size)) ∧
      (create_block_reservation store spaceName blockName netList req
        creator now newId).1 = .ok r ∧
      subnetSel p req.size req.reverse_search = some r.cidr ∧
      r.cidr.len = req.size ∧ r.cidr.withinR p ∧ r.status = "wait" := by
  subst hscan
  obtain ⟨m, hm⟩ : ∃ m, listMaxNat (((if req.reverse_search then
      (iterCidrs (availableSetOf netList tb)).reverse
    else iterCidrs (availableSetOf netList tb)).filter
      (fun c => decide (c.len ≤ req.size))).map Cidr.len) = some m := by
    have := listMaxNat_isSome (l := ((if req.reverse_search then
        (iterCidrs (availableSetOf netList tb)).reverse
      else iterCidrs (availableSetOf netList tb)).filter
        (fun c => decide (c.len ≤ req.size))).map Cidr.len) (by simpa using hcand)
    exact Option.isSome_iff_exists.mp this
  have hge : ∀ q ∈ (if req.reverse_search then
      (iterCidrs (availableSetOf netList tb)).reverse
    else iterCidrs (availableSetOf netList tb)).filter
      (fun c => decide (c.len ≤ req.size)), q.len ≤ m :=
    fun q hq => listMaxNat_ge hm _ (List.mem_map_of_mem _ hq)
  have hmem : m ∈ ((if req.reverse_search then
      (iterCidrs (availableSetOf netList tb)).reverse
    else iterCidrs (availableSetOf netList tb)).filter
      (fun c => decide (c.len ≤ req.size))).map Cidr.len := listMaxNat_mem hm
  have hfilter_ne : ((if req.reverse_search then
      (iterCidrs (availableSetOf netList tb)).reverse
    else iterCidrs (availableSetOf netList tb)).filter
      (fun c => decide (c.len ≤ req.size))).filter
      (fun c => decide (c.len = m)) ≠ [] := by
    obtain ⟨q, hq, hqm⟩ := List.mem_map.mp hmem
    intro hnil
    have hqmem : q ∈ ((if req.reverse_search then
        (iterCidrs (availableSetOf netList tb)).reverse
      else iterCidrs (availableSetOf netList tb)).filter
        (fun c => decide (c.len ≤ req.size))).filter
        (fun c => decide (c.len = m)) :=
      List.mem_filter.mpr ⟨hq, by simp [hqm]⟩
    rw [hnil] at hqmem
    exact absurd hqmem (List.not_mem_nil _)
  obtain ⟨p, hphead, hpmem, hpdec⟩ := filter_head_of_ne_nil hfilter_ne
  have hplen_m : p.len = m := by simpa using hpdec
  have hple : p.len ≤ req.size := by
    have := (List.mem_filter.mp hpmem).2
    simpa using this
  have hpick : pickAvailableBlock (availableSetOf netList tb) req.size
      req.reverse_search true = .ok (some p) := by
    unfold pickAvailableBlock
    simp only [if_true]
    rw [hm]
    dsimp only
    rw [hphead]
  obtain ⟨v, hsel, hvlen, hvin⟩ : ∃ v, subnetSel p req.size req.reverse_search = some v ∧
      v.len = req.size ∧ v.withinR p := by
    have h0 : 0 < 2 ^ (req.size - p.len) := Nat.pos_pow_of_pos _ (by norm_num)
    cases hrev : req.reverse_search
    · refine ⟨⟨p.base, req.size⟩, by simp [subnetSel, subnets_head hple], rfl, ?_⟩
      have := subnet_withinR (c := p) (n := req.size) (j := 0) hple hsz h0
      simpa using this
    · refine ⟨⟨p.base + (2 ^ (req.size - p.len) - 1) * 2 ^ (32 - req.size), req.size⟩,
        by simp [subnetSel, subnets_getLast hple], rfl, ?_⟩
      exact subnet_withinR (c := p) (n := req.size)
        (j := 2 ^ (req.size - p.len) - 1) hple hsz (by omega)
  refine ⟨m, p, ⟨newId, v, req.desc, now, creator, none, none, "wait"⟩,
    hm, hge, hphead, hplen_m, hpmem, ?_, by rw [hsel], hvlen, hvin, rfl⟩
  simp [create_block_reservation, hsp, hbl, hcidr, hsm, hpick, hsel]

/-- Example fixture: an unsettled reservation claiming 10.0.0.0/17. -/
def exResvHalf : Reservation :=
  { rid := "r1", cidr := ⟨167772160, 17⟩, desc := "half", createdOn := 0,
    createdBy := "user1", settledOn := none, settledBy := none, status := "wait" }

/-- Example fixture: 10.0.0.0/16 block with 10.0.0.0/17 already reserved. -/
def exBlockHalf : Block :=
  { name := "blk1", cidr := ⟨167772160, 16⟩, vnets := [], externals := [],
    resv := [exResvHalf] }

/-- Example fixture: a space holding the half-reserved block. -/
def exDocHalf : SpaceDoc :=
  { sid := "sid1", name := "corp", desc := "main", blocks := [exBlockHalf] }

/-- Witness for C2 at the spec's best-fit scenario: block 10.0.0.0/16 with
10.0.0.0/17 reserved; a smallest_cidr size-24 request returns 10.0.128.0/24
(167804928). -/
theorem C2_by_size_smallest_witness :
    blockI3 [] exBlockHalf = true ∧
    ∃ r : Reservation,
      (create_block_reservation [exDocHalf] "corp" "blk1" []
        ⟨24, none, "bu1", false, true⟩ "user1" 5 "rid1").1 = .ok r ∧
      r.cidr = ⟨167804928, 24⟩ := by
  have h := C2_by_size_smallest [exDocHalf] "corp" "blk1" []
    ⟨24, none, "bu1", false, true⟩ "user1" 5 "rid1" exDocHalf exBlockHalf
    (iterCidrs (availableSetOf [] exBlockHalf))
    (by decide) (by decide) rfl rfl (by decide) rfl (by decide)
  refine ⟨by decide, ?_⟩
  obtain ⟨m, p, r, hm, _, hphead, _, _, hres, hsel, _, _, _⟩ := h
  dsimp only at hm hphead hsel hres
  have hm17 : listMaxNat (((iterCidrs (availableSetOf [] exBlockHalf)).filter
      (fun c => decide (c.len ≤ (24 : Nat)))).map Cidr.len) = some 17 := by decide
  have hmv : m = 17 := by
    have := (Option.some.injEq _ _).mp (hm17.symm.trans hm)
    omega
  subst hmv
  have hpv : p = ⟨167804928, 17⟩ := by
    have hc : (((iterCidrs (availableSetOf [] exBlockHalf)).filter
        (fun c => decide (c.len ≤ (24 : Nat)))).filter
        (fun c => decide (c.len = (17 : Nat)))).head? = some ⟨167804928, 17⟩ := by decide
    exact ((Option.some.injEq _ _).mp (hc.symm.trans hphead)).symm
  subst hpv
  have hv : subnetSel ⟨167804928, 17⟩ 24 false = some ⟨167804928, 24⟩ := by decide
  exact ⟨r, hres, ((Option.some.injEq _ _).mp (hv.symm.trans hsel)).symm⟩

/-- Example fixture: an unsettled reservation claiming 10.0.0.0/25 inside a
/24 block, leaving only a /25 free. -/
def exResvQuarter : Reservation :=
  { rid := "r2", cidr := ⟨167772160, 25⟩, desc := "q", createdOn := 0,
    createdBy := "user1", settledOn := none, settledBy := none, status := "wait" }

/-- Example fixture: 10.0.0.0/24 block whose free set is a single /25, so no
/24 candidate exists. -/
def exBlockTight : Block :=
  { name := "b24", cidr := ⟨167772160, 24⟩, vnets := [], externals := [],
    resv := [exResvQuarter] }

/-- Example fixture: a space holding the tight block. -/
def exDocTight : SpaceDoc :=
  { sid := "sid2", name := "corp2", desc := "main", blocks := [exBlockTight] }

/-- C3: when the free set of the block holds no prefix of length at most the
requested size, the first-fit paths (both reverse_search values) do return
the 500 detail "Network of requested size unavailable in target block.", but
with smallest_cidr the default-less `max()` of create_block_reservation
raises ValueError on the empty candidate list instead; the multi-block
handler, whose `max(..., default=None)` has the default, returns its
unavailable detail. This refutes the claim for smallest_cidr=true. -/
theorem C3_unavailable_smallest_value_error :
    (create_block_reservation [exDocTight] "corp2" "b24" []
      ⟨24, none, "d", false, true⟩ "user1" 5 "rid1").1
      = .error (.pyError "ValueError: max() arg is an empty sequence") ∧
    (create_block_reservation [exDocTight] "corp2" "b24" []
      ⟨24, none, "d", true, true⟩ "user1" 5 "rid1").1
      = .error (.pyError "ValueError: max() arg is an empty sequence") ∧
    (create_block_reservation [exDocTight] "corp2" "b24" []
      ⟨24, none, "d", false, false⟩ "user1" 5 "rid1").1
      = .error (.internal "Network of requested size unavailable in target block.") ∧
    (create_block_reservation [exDocTight] "corp2" "b24" []
      ⟨24, none, "d", true, false⟩ "user1" 5 "rid1").1
      = .error (.internal "Network of requested size unavailable in target block.") ∧
    create_multi_block_reservation exDocTight [] ⟨["b24"], 24, "d", false, true⟩
        "user1" 5 "rid1"
      = .error (.internal "Network of requested size unavailable in target block(s).") :=
  ⟨by decide, by decide, by decide, by decide, by decide⟩

/-- Stamping keeps the reservation id. -/
theorem stampResv_rid (now : Nat) (u : String) (r : Reservation) :
    (stampResv now u r).rid = r.rid := rfl

theorem map_stamp_cond_rid (now : Nat) (u : String) (p : Reservation → Prop)
    [DecidablePred p] (rs : List Reservation) :
    (rs.map (fun r => if p r then stampResv now u r else r)).map Reservation.rid
      = rs.map Reservation.rid := by
  rw [List.map_map]
  refine List.map_congr_left ?_
  intro r _
  by_cases hp : p r <;> simp [hp, stampResv]

theorem stampFirst_eq_map {now : Nat} {u : String} {id : String} :
    ∀ {rs : List Reservation}, (rs.map Reservation.rid).Nodup →
      stampFirst now u rs id =
        rs.map (fun r => if r.rid = id then stampResv now u r else r) := by
  intro rs
  induction rs with
  | nil => intro _; rfl
  | cons r rs ih =>
    intro h
    rw [List.map_cons, List.nodup_cons] at h
    by_cases hr : r.rid = id
    · have htail : rs.map (fun s => if s.rid = id then stampResv now u s else s) = rs := by
        have hcongr : rs.map (fun s => if s.rid = id then stampResv now u s else s)
            = rs.map (fun s => s) := by
          refine List.map_congr_left ?_
          intro s hs
          have : s.rid ≠ id := fun he => h.1 (hr ▸ he ▸ List.mem_map_of_mem _ hs)
          simp [this]
        rw [hcongr]
        simp
      simp [stampFirst, hr, htail]
    · simp [stampFirst, hr, ih h.2]

theorem foldl_stampFirst {now : Nat} {u : String} :
    ∀ (ids : List String) (rs : List Reservation),
      (rs.map Reservation.rid).Nodup →
      ids.foldl (stampFirst now u) rs =
        rs.map (fun r => if r.rid ∈ ids then stampResv now u r else r) := by
  intro ids
  induction ids with
  | nil =>
    intro rs _
    simp
  | cons id ids ih =>
    intro rs h
    rw [List.foldl_cons, stampFirst_eq_map h,
      ih _ (by rw [map_stamp_cond_rid]; exact h), List.map_map]
    refine List.map_congr_left ?_
    intro r _
    by_cases hid : r.rid = id
    · by_cases hin : r.rid ∈ ids <;>
        simp [hid, hin, stampResv, List.mem_cons]
    · by_cases hin : r.rid ∈ ids <;>
        simp [hid, hin, List.mem_cons]

theorem updateBlockFirst_congr {blocks : List Block} {n : String} {tb : Block}
    (h : findBlockIn blocks n = some tb) (f g : Block → Block)
    (hfg : f tb = g tb) :
    updateBlockFirst blocks n f = updateBlockFirst blocks n g := by
  induction blocks with
  | nil => rfl
  | cons b bs ih =>
    unfold findBlockIn at h
    by_cases hb : lowerEq b.name n
    · rw [show (b :: bs).find? (fun x => lowerEq x.name n) = some b from
        List.find?_cons_of_pos _ hb] at h
      have hbt : tb = b := by
        have := (Option.some.injEq _ _).mp h
        exact this.symm
      subst hbt
      simp [updateBlockFirst, hb, hfg]
    · rw [show (b :: bs).find? (fun x => lowerEq x.name n) = bs.find? (fun x => lowerEq x.name n) from
        List.find?_cons_of_neg _ hb] at h
      simp only [updateBlockFirst, hb, if_false]
      rw [ih h]
      simp

/-- C4: deleting reservations (bulk and single endpoint) is a soft settle.
For non-admins a request naming a reservation of another user yields 403;
otherwise the touched reservations are exactly the unsettled ones named by
the request, each kept in place but stamped with settledOn := now,
settledBy := caller and status := "cancelledByUser", while settled
reservations and unnamed reservations are left unchanged (for the single
endpoint a settled target causes no write at all). -/
theorem C4_delete_reservations_soft_settle
    (doc : SpaceDoc) (blockName : String) (req : List String)
    (userName : String) (isAdmin : Bool) (now : Nat) (tb : Block)
    (hbl : findBlockIn doc.blocks blockName = some tb)
    (hnodup : (tb.resv.map Reservation.rid).Nodup)
    (hdup : distinctB req = true)
    (hexist : req.all (fun id => (tb.resv.map (fun r => r.rid)).contains id) = true) :
    ((isAdmin = false ∧ ∃ r ∈ tb.resv, r.rid ∈ req ∧ r.createdBy ≠ userName) →
      delete_block_reservations doc blockName req userName isAdmin now =
        .error (.forbidden "Users can only delete their own reservations.")) ∧
    ((isAdmin = true ∨ ∀ r ∈ tb.resv, r.rid ∈ req → r.createdBy = userName) →
      delete_block_reservations doc blockName req userName isAdmin now =
        .ok { doc with blocks := updateBlockFirst doc.blocks blockName (fun b =>
          { b with resv := tb.resv.map (fun r =>
              if r.settledOn = none ∧ r.rid ∈ req then stampResv now userName r
              else r) }) }) ∧
    ((tb.resv.map (fun r => if r.settledOn = none ∧ r.rid ∈ req
        then stampResv now userName r else r)).length = tb.resv.length) ∧
    (∀ r : Reservation, stampResv now userName r = { r with settledOn := some now, settledBy := some userName, status := "cancelledByUser" }) ∧
    (∀ resvId : String, ∀ tr : Reservation,
      tb.resv.find? (fun r => r.rid == resvId) = some tr →
      ((isAdmin = false ∧ tr.createdBy ≠ userName →
        delete_block_reservation_single doc blockName resvId userName isAdmin now =
          .error (.forbidden "Users can only delete their own reservations.")) ∧
      ((isAdmin = true ∨ tr.createdBy = userName) → tr.settledOn ≠ none →
        delete_block_reservation_single doc blockName resvId userName isAdmin now =
          .ok none) ∧
      ((isAdmin = true ∨ tr.createdBy = userName) → tr.settledOn = none →
        delete_block_reservation_single doc blockName resvId userName isAdmin now =
          .ok (some { doc with blocks := updateBlockFirst doc.blocks blockName (fun b =>
            { b with resv := tb.resv.map (fun r =>
                if r.rid = resvId then stampResv now userName r else r) }) })))) := by
  refine ⟨?_, ?_, by simp, fun r => rfl, ?_⟩
  · rintro ⟨hadm, r0, hr0, hrid, hown⟩
    have hcond : (¬ isAdmin = true ∧ (tb.resv.filter
        (fun r => req.contains r.rid && decide (r.createdBy ≠ userName))) ≠ []) := by
      refine ⟨by simp [hadm], ?_⟩
      apply List.ne_nil_of_mem (a := r0)
      refine List.mem_filter.mpr ⟨hr0, ?_⟩
      simp [hrid, hown]
    simp only [delete_block_reservations, hbl]
    rw [if_neg (not_not_intro hdup), if_neg (not_not_intro hexist), if_pos hcond]
  · intro h2
    have hcond : ¬ (¬ isAdmin = true ∧ (tb.resv.filter
        (fun r => req.contains r.rid && decide (r.createdBy ≠ userName))) ≠ []) := by
      rintro ⟨hna, hfil⟩
      rcases h2 with hadm | hown
      · exact hna (by simp [hadm])
      · apply hfil
        rw [List.filter_eq_nil_iff]
        intro r hr
        simp only [Bool.and_eq_true, decide_eq_true_eq, not_and]
        intro hcont
        have hmem : r.rid ∈ req := by simpa using hcont
        simp [hown r hr hmem]
    simp only [delete_block_reservations, hbl]
    rw [if_neg (not_not_intro hdup), if_neg (not_not_intro hexist), if_neg hcond]
    rw [foldl_stampFirst _ _ hnodup]
    have hmap : tb.resv.map (fun r => if r.rid ∈ (tb.resv.filter
          (fun s => s.settledOn.isNone && req.contains s.rid)).map (fun s => s.rid)
        then stampResv now userName r else r)
        = tb.resv.map (fun r => if r.settledOn = none ∧ r.rid ∈ req
            then stampResv now userName r else r) := by
      refine List.map_congr_left ?_
      intro r hr
      have hiff : (r.rid ∈ (tb.resv.filter
            (fun s => s.settledOn.isNone && req.contains s.rid)).map (fun s => s.rid))
          ↔ (r.settledOn = none ∧ r.rid ∈ req) := by
        constructor
        · intro hin
          obtain ⟨s, hs, hsr⟩ := List.mem_map.mp hin
          have hs2 := List.mem_filter.mp hs
          have hsreq : s = r := List.inj_on_of_nodup_map hnodup hs2.1 hr hsr
          subst hsreq
          have hp := hs2.2
          simp only [Bool.and_eq_true] at hp
          exact ⟨Option.isNone_iff_eq_none.mp hp.1, by simpa using hp.2⟩
        · rintro ⟨hset, hin⟩
          exact List.mem_map.mpr ⟨r, List.mem_filter.mpr ⟨hr, by simp [hset, hin]⟩, rfl⟩
      by_cases hc : r.settledOn = none ∧ r.rid ∈ req
      · rw [if_pos (hiff.mpr hc), if_pos hc]
      · rw [if_neg (fun hx => hc (hiff.mp hx)), if_neg hc]
    rw [hmap]
  · intro resvId tr hfind
    refine ⟨?_, ?_, ?_⟩
    · rintro ⟨hadm, hown⟩
      simp only [delete_block_reservation_single, hbl, hfind]
      rw [if_pos ⟨by simp [hadm], hown⟩]
    · intro hor hset
      have hcond : ¬ (¬ isAdmin = true ∧ tr.createdBy ≠ userName) := by
        rintro ⟨hna, hne⟩
        rcases hor with hadm | hownd
        · exact hna (by simp [hadm])
        · exact hne hownd
      simp only [delete_block_reservation_single, hbl, hfind]
      rw [if_neg hcond, if_neg (by simp [Option.isNone_iff_eq_none, hset])]
    · intro hor hset
      have hcond : ¬ (¬ isAdmin = true ∧ tr.createdBy ≠ userName) := by
        rintro ⟨hna, hne⟩
        rcases hor with hadm | hownd
        · exact hna (by simp [hadm])
        · exact hne hownd
      simp only [delete_block_reservation_single, hbl, hfind]
      rw [if_neg hcond, if_pos (by simp [Option.isNone_iff_eq_none, hset])]
      have hupd := updateBlockFirst_congr hbl
        (fun b => { b with resv := stampFirst now userName b.resv resvId })
        (fun b => { b with resv := tb.resv.map (fun r =>
          if r.rid = resvId then stampResv now userName r else r) })
        (by dsimp only; rw [stampFirst_eq_map hnodup])
      rw [hupd]

/-- Example fixture: an unsettled reservation of alice with id a. -/
def exResvA : Reservation :=
  { rid := "a", cidr := ⟨167772160, 24⟩, desc := "x", createdOn := 0,
    createdBy := "alice", settledOn := none, settledBy := none, status := "wait" }

/-- Example fixture: an already settled reservation of alice with id b. -/
def exResvB : Reservation :=
  { rid := "b", cidr := ⟨167772416, 24⟩, desc := "x", createdOn := 0,
    createdBy := "alice", settledOn := some 3, settledBy := some "alice",
    status := "cancelledByUser" }

/-- Example fixture: an unsettled reservation of bob with id c. -/
def exResvC : Reservation :=
  { rid := "c", cidr := ⟨167772672, 24⟩, desc := "x", createdOn := 0,
    createdBy := "bob", settledOn := none, settledBy := none, status := "wait" }

/-- Example fixture: a block holding the three reservations. -/
def exBlockDel : Block :=
  { name := "blkd", cidr := ⟨167772160, 16⟩, vnets := [], externals := [],
    resv := [exResvA, exResvB, exResvC] }

/-- Example fixture: the space document around exBlockDel. -/
def exDocDel : SpaceDoc :=
  { sid := "sidd", name := "corpd", desc := "d", blocks := [exBlockDel] }

/-- Example fixture: exResvA after the soft settle at time 7 by alice. -/
def exResvAStamped : Reservation :=
  { rid := "a", cidr := ⟨167772160, 24⟩, desc := "x", createdOn := 0,
    createdBy := "alice", settledOn := some 7, settledBy := some "alice",
    status := "cancelledByUser" }

/-- Example fixture: the expected document after the bulk soft settle; the
settled reservation b and the unnamed reservation c are byte-for-byte
unchanged. -/
def exDocDelAfter : SpaceDoc :=
  { sid := "sidd", name := "corpd", desc := "d", blocks :=
    [{ name := "blkd", cidr := ⟨167772160, 16⟩, vnets := [], externals := [],
       resv := [exResvAStamped, exResvB, exResvC] }] }

/-- Witness for C4: alice bulk-deletes reservations a and b (b already
settled) as a non-admin: only a is stamped; and her single delete of bob's
reservation c yields 403. -/
theorem C4_delete_reservations_soft_settle_witness :
    (findBlockIn exDocDel.blocks "blkd" = some exBlockDel ∧
      distinctB ["a", "b"] = true) ∧
    delete_block_reservations exDocDel "blkd" ["a", "b"] "alice" false 7 =
      .ok exDocDelAfter ∧
    delete_block_reservation_single exDocDel "blkd" "c" "alice" false 7 =
      .error (.forbidden "Users can only delete their own reservations.") := by
  have h := C4_delete_reservations_soft_settle exDocDel "blkd" ["a", "b"]
    "alice" false 7 exBlockDel (by decide) (by decide) (by decide) (by decide)
  refine ⟨⟨by decide, by decide⟩, ?_, ?_⟩
  · have h2 := h.2.1 (Or.inr (by decide))
    rw [h2]
    decide
  · have h5 := h.2.2.2.2 "c" exResvC (by decide)
    exact h5.1 ⟨rfl, by decide⟩

/-- Example fixture: inventory vnet V with prefix 10.0.0.0/24. -/
def exNetV : NetInfo := { nid := "V", prefixes := [⟨167772160, 24⟩] }

/-- Example fixture: inventory vnet W with prefix 10.0.1.0/24, attached
nowhere. -/
def exNetW : NetInfo := { nid := "W", prefixes := [⟨167772416, 24⟩] }

/-- Example fixture: space A whose block1 has vnet V attached. -/
def exSpaceA : SpaceDoc :=
  { sid := "sa", name := "spaceA", desc := "d", blocks :=
    [{ name := "block1", cidr := ⟨167772160, 16⟩, vnets := [{ vid := "V", active := true }],
       externals := [], resv := [] }] }

/-- Example fixture: space B whose block2 has nothing attached. -/
def exSpaceB : SpaceDoc :=
  { sid := "sb", name := "spaceB", desc := "d", blocks :=
    [{ name := "block2", cidr := ⟨167772160, 16⟩, vnets := [], externals := [], resv := [] }] }

/-- C5: vnet V is attached to (spaceA, block1), a different (space, block)
pair, yet GET available for (spaceB, block2) still lists V when V sits at
index 0 of the candidate list (`if net_index:` treats index 0 as false); as
soon as another candidate W precedes it, V is removed. This refutes the claim
that an attached vnet is excluded regardless of its position. -/
theorem C5_available_nets_keeps_attached_vnet :
    (∃ sp ∈ [exSpaceA, exSpaceB], ∃ bl ∈ sp.blocks, ∃ v ∈ bl.vnets,
      v.vid = "V" ∧ sp.name ≠ "spaceB" ∧ bl.name ≠ "block2") ∧
    available_block_nets [exSpaceA, exSpaceB] "spaceB" "block2" [exNetV]
      = .ok [exNetV] ∧
    available_block_nets [exSpaceA, exSpaceB] "spaceB" "block2" [exNetW, exNetV]
      = .ok [exNetW] :=
  ⟨by decide, by decide, by decide⟩

/-- Example fixture: an external network 10.0.0.0/25 inside a /24 block. -/
def exDocExt : SpaceDoc :=
  { sid := "side", name := "corpe", desc := "d", blocks :=
    [{ name := "blke", cidr := ⟨167772160, 24⟩, vnets := [],
       externals := [{ name := "ext1", desc := "d", cidr := ⟨167772160, 25⟩, subnets := [] }],
       resv := [] }] }

/-- C6: GET space with utilization=true crashes with a TypeError as soon as a
block contains an external network, because the externals loop accumulates
into the str path parameter (`space['used'] += ...`); without externals the
space-level size/used pair is produced (and necessarily excludes externals).
This refutes the claim that the handler succeeds and counts externals. -/
theorem C6_space_utilization_externals_type_error :
    get_space_utilization [exDocExt] "corpe" [] =
      .error (.pyError "TypeError: string indices must be integers") ∧
    get_space_utilization [exDocTight] "corp2" [] = .ok (256, 0) :=
  ⟨by decide, by decide⟩

/-- Example fixture: an inventory vnet with two in-block prefixes, 10.0.1.0/24
first and 10.0.2.0/24 second. -/
def exNetMulti : NetInfo :=
  { nid := "VM", prefixes := [⟨167772416, 24⟩, ⟨167772672, 24⟩] }

/-- Example fixture: the same vnet with its prefixes in the other order. -/
def exNetMultiRev : NetInfo :=
  { nid := "VM", prefixes := [⟨167772672, 24⟩, ⟨167772416, 24⟩] }

/-- Example fixture: block 10.0.0.0/16 with an unsettled reservation on
10.0.2.0/24 and no vnets. -/
def exBlockNine : Block :=
  { name := "blk9", cidr := ⟨167772160, 16⟩, vnets := [], externals := [],
    resv := [{ rid := "ro", cidr := ⟨167772672, 24⟩, desc := "x", createdOn := 0,
               createdBy := "u", settledOn := none, settledBy := none, status := "wait" }] }

/-- Example fixture: the space document around exBlockNine. -/
def exDocNine : SpaceDoc :=
  { sid := "sid9", name := "corp9", desc := "d", blocks := [exBlockNine] }

/-- Example fixture: the document produced by attaching VM to blk9. -/
def exDocNineAfter : SpaceDoc :=
  { sid := "sid9", name := "corp9", desc := "d", blocks :=
    [{ name := "blk9", cidr := ⟨167772160, 16⟩, vnets := [{ vid := "VM", active := true }],
       externals := [],
       resv := [{ rid := "ro", cidr := ⟨167772672, 24⟩, desc := "x", createdOn := 0,
                  createdBy := "u", settledOn := none, settledBy := none, status := "wait" }] }] }

/-- C9: POST networks checks only the first in-block prefix of the attached
vnet against the block's claimed set, so attaching a vnet whose second
in-block prefix overlaps an unsettled reservation succeeds and the written
document violates I3; with the prefixes in the other order (the overlapping
one first) the same attachment is rejected. This refutes the claim that
every successful mutation preserves I3. -/
theorem C9_create_block_net_breaks_I3 :
    blockI3 [exNetMulti] exBlockNine = true ∧
    create_block_net exDocNine "blk9" [exNetMulti] "VM" = .ok exDocNineAfter ∧
    (findBlockIn exDocNineAfter.blocks "blk9").map (blockI3 [exNetMulti]) = some false ∧
    create_block_net exDocNine "blk9" [exNetMultiRev] "VM" =
      .error (.badRequest "Block already contains network(s) and/or reservation(s) within the CIDR range of target network.") :=
  ⟨by decide, by decide, by decide, by decide⟩

/-- The child prefixes of a block in the sense of the coverage claim: the
vnet prefixes that fall inside the block CIDR (with the exact-id inventory
lookup of the validator), the externals and the unsettled reservations. -/
def blockChildCidrs (netList : List NetInfo) (b : Block) : List Cidr :=
  (b.vnets.flatMap (fun v =>
    match netList.find? (fun i => i.nid == v.vid) with
    | some t => t.prefixes.filter (fun p => p.inNet b.cidr)
    | none => []))
  ++ (b.externals.map (fun e => e.cidr))
  ++ ((b.resv.filter (fun r => r.settledOn.isNone)).map (fun r => r.cidr))

theorem blockChildCidrs_subset_harvest (netList : List NetInfo) (b : Block) :
    ∀ d ∈ blockChildCidrs netList b, d ∈ validatorHarvest netList b := by
  intro d hd
  unfold blockChildCidrs at hd
  unfold validatorHarvest
  rw [List.mem_append, List.mem_append] at hd ⊢
  rcases hd with (h | h) | h
  · refine Or.inl (Or.inl ?_)
    obtain ⟨v, hv, hdv⟩ := List.mem_flatMap.mp h
    refine List.mem_flatMap.mpr ⟨v, hv, ?_⟩
    cases hfind : netList.find? (fun i => i.nid == v.vid) with
    | none => rw [hfind] at hdv; simp at hdv
    | some t =>
      rw [hfind] at hdv
      exact (List.mem_filter.mp hdv).1
  · exact Or.inl (Or.inr h)
  · exact Or.inr h

theorem valid_fold_acc (blocks : List Block) (blockName : String)
    (netList : List NetInfo) :
    blocks.foldl
      (fun (acc : List Cidr × List Cidr) b =>
        if b.name ≠ blockName then (acc.1 ++ [b.cidr], acc.2)
        else (acc.1, acc.2 ++ validatorHarvest netList b))
      ([], [])
    = ((blocks.filter (fun b => decide (b.name ≠ blockName))).map (fun b => b.cidr),
       (blocks.filter (fun b => decide (b.name = blockName))).flatMap
         (validatorHarvest netList)) := by
  suffices h : ∀ acc : List Cidr × List Cidr, blocks.foldl
      (fun (acc : List Cidr × List Cidr) b =>
        if b.name ≠ blockName then (acc.1 ++ [b.cidr], acc.2)
        else (acc.1, acc.2 ++ validatorHarvest netList b)) acc
      = (acc.1 ++ (blocks.filter (fun b => decide (b.name ≠ blockName))).map (fun b => b.cidr),
         acc.2 ++ (blocks.filter (fun b => decide (b.name = blockName))).flatMap
           (validatorHarvest netList)) by
    simpa using h ([], [])
  induction blocks with
  | nil => intro acc; simp
  | cons b bs ih =>
    intro acc
    rw [List.foldl_cons]
    by_cases hb : b.name = blockName
    · rw [if_neg (by simp [hb]), ih]
      simp [hb]
    · rw [if_pos hb, ih]
      simp [hb]

theorem inNet_of_pointwise {d c : Cidr}
    (h : ∀ x, (d.netBase ≤ x ∧ x < d.netBase + d.size) →
      (c.netBase ≤ x ∧ x < c.netBase + c.size)) :
    d.inNet c = true := by
  have hd : 0 < d.size := Nat.pos_pow_of_pos _ (by norm_num)
  have h1 := h d.netBase ⟨le_refl _, by omega⟩
  have h2 := h (d.netBase + d.size - 1) ⟨by omega, by omega⟩
  unfold Cidr.inNet
  rw [decide_eq_true_eq]
  omega

/-- C7: a replace of /cidr on a block is accepted only if the new value is
canonical, does not overlap the other blocks of the space, and covers every
child prefix of the block (in-block vnet prefixes, externals, unsettled
reservations); a value distinct from the current CIDR that fails coverage is
rejected with 400 (either a raised error or a False return, both surfaced as
400 by scrub_block_patch); and a value equal to the current CIDR always
succeeds, the equality shortcut running before canonicalization. -/
theorem C7_block_cidr_patch_coverage
    (blocks : List Block) (blockName : String) (netList : List NetInfo)
    (c : Cidr) (tb : Block)
    (hfind : blocks.find? (fun x => lowerEq x.name blockName) = some tb)
    (hname : tb.name = blockName) :
    (c = tb.cidr → valid_block_cidr_update blocks blockName netList c = .ok true) ∧
    (valid_block_cidr_update blocks blockName netList c = .ok true →
      c = tb.cidr ∨
      (c.canonicalB = true ∧
       overlapSet (cidrSet ((blocks.filter (fun b => decide (b.name ≠ blockName))).map
         (fun b => b.cidr))) (cidrSet [c]) = false ∧
       ∀ d ∈ blockChildCidrs netList tb, d.inNet c = true)) ∧
    (c ≠ tb.cidr → (∃ d ∈ blockChildCidrs netList tb, d.inNet c = false) →
      valid_block_cidr_update blocks blockName netList c ≠ .ok true) := by
  have htbmem : tb ∈ blocks := List.mem_of_find?_eq_some hfind
  have htbfil : tb ∈ blocks.filter (fun b => decide (b.name = blockName)) :=
    List.mem_filter.mpr ⟨htbmem, by simp [hname]⟩
  have hchild_mem : ∀ d ∈ blockChildCidrs netList tb,
      d ∈ (blocks.filter (fun b => decide (b.name = blockName))).flatMap
        (validatorHarvest netList) := by
    intro d hd
    exact List.mem_flatMap.mpr ⟨tb, htbfil, blockChildCidrs_subset_harvest netList tb d hd⟩
  refine ⟨?_, ?_, ?_⟩
  · intro hc
    unfold valid_block_cidr_update
    rw [hfind]
    simp [hc]
  · intro hok
    by_cases hc : c = tb.cidr
    · exact Or.inl hc
    right
    unfold valid_block_cidr_update at hok
    rw [hfind] at hok
    dsimp only at hok
    rw [if_neg hc] at hok
    by_cases hcanon : c.canonicalB = true
    · rw [if_neg (by simp [hcanon])] at hok
      dsimp only at hok
      rw [valid_fold_acc] at hok
      by_cases hover : overlapSet (cidrSet ((blocks.filter
          (fun b => decide (b.name ≠ blockName))).map (fun b => b.cidr))) (cidrSet [c]) = true
      · rw [if_pos hover] at hok
        simp at hok
      · rw [if_neg hover] at hok
        refine ⟨hcanon, by simpa using hover, ?_⟩
        by_cases hsub : subsetSet (cidrSet ((blocks.filter
            (fun b => decide (b.name = blockName))).flatMap (validatorHarvest netList)))
            (cidrSet [c]) = true
        · intro d hd
          have hpt := (subsetSet_iff (cidrSet_nonempty _)).mp hsub
          refine inNet_of_pointwise ?_
          intro x hx
          have hmem : memSet (cidrSet ((blocks.filter
              (fun b => decide (b.name = blockName))).flatMap (validatorHarvest netList))) x :=
            (memSet_cidrSet _ _).mpr ⟨d, hchild_mem d hd, hx⟩
          have := (memSet_cidrSet _ _).mp (hpt x hmem)
          obtain ⟨c2, hc2, hc2x⟩ := this
          rw [List.mem_singleton] at hc2
          subst hc2
          exact hc2x
        · rw [if_pos hsub] at hok
          simp at hok
    · rw [if_pos (by simp [hcanon])] at hok
      simp at hok
  · intro hc hbad hok
    obtain ⟨d, hd, hdnot⟩ := hbad
    unfold valid_block_cidr_update at hok
    rw [hfind] at hok
    dsimp only at hok
    rw [if_neg hc] at hok
    by_cases hcanon : c.canonicalB = true
    · rw [if_neg (by simp [hcanon])] at hok
      dsimp only at hok
      rw [valid_fold_acc] at hok
      by_cases hover : overlapSet (cidrSet ((blocks.filter
          (fun b => decide (b.name ≠ blockName))).map (fun b => b.cidr))) (cidrSet [c]) = true
      · rw [if_pos hover] at hok
        simp at hok
      · rw [if_neg hover] at hok
        by_cases hsub : subsetSet (cidrSet ((blocks.filter
            (fun b => decide (b.name = blockName))).flatMap (validatorHarvest netList)))
            (cidrSet [c]) = true
        · exfalso
          have hpt := (subsetSet_iff (cidrSet_nonempty _)).mp hsub
          have hin : d.inNet c = true := by
            refine inNet_of_pointwise ?_
            intro x hx
            have hmem : memSet (cidrSet ((blocks.filter
                (fun b => decide (b.name = blockName))).flatMap (validatorHarvest netList))) x :=
              (memSet_cidrSet _ _).mpr ⟨d, hchild_mem d hd, hx⟩
            have := (memSet_cidrSet _ _).mp (hpt x hmem)
            obtain ⟨c2, hc2, hc2x⟩ := this
            rw [List.mem_singleton] at hc2
            subst hc2
            exact hc2x
          rw [hin] at hdnot
          simp at hdnot
        · rw [if_pos hsub] at hok
          simp at hok
    · rw [if_pos (by simp [hcanon])] at hok
      simp at hok

/-- Example fixture: block 10.0.0.0/16 with an unsettled reservation on
10.0.200.0/24 (167823360). -/
def exBlockPatch : Block :=
  { name := "blk1", cidr := ⟨167772160, 16⟩, vnets := [], externals := [],
    resv := [{ rid := "rp", cidr := ⟨167823360, 24⟩, desc := "x", createdOn := 0,
               createdBy := "u", settledOn := none, settledBy := none, status := "wait" }] }

/-- Witness for C7 at the spec's shrink scenario: patching the block CIDR of
exBlockPatch to 10.0.0.0/17 fails coverage (the reservation 10.0.200.0/24 is
outside it) and is not accepted, while the equal value 10.0.0.0/16 is accepted. -/
theorem C7_block_cidr_patch_coverage_witness :
    ([exBlockPatch].find? (fun x => lowerEq x.name "blk1") = some exBlockPatch ∧
      exBlockPatch.name = "blk1") ∧
    valid_block_cidr_update [exBlockPatch] "blk1" [] ⟨167772160, 16⟩ = .ok true ∧
    valid_block_cidr_update [exBlockPatch] "blk1" [] ⟨167772160, 17⟩ ≠ .ok true := by
  have h17 := C7_block_cidr_patch_coverage [exBlockPatch] "blk1" []
    ⟨167772160, 17⟩ exBlockPatch (by decide) (by decide)
  have h16 := C7_block_cidr_patch_coverage [exBlockPatch] "blk1" []
    ⟨167772160, 16⟩ exBlockPatch (by decide) (by decide)
  exact ⟨⟨by decide, by decide⟩, h16.1 rfl,
    h17.2.2 (by decide) ⟨⟨167823360, 24⟩, by decide, by decide⟩⟩

/-- The per-block allocation outcome of the multi-block walk: none when the
block name does not resolve or the block has no suitable free prefix. -/
def pickFor (doc : SpaceDoc) (netList : List NetInfo) (req : SpaceCIDRReq)
    (bn : String) : Option Cidr :=
  match findBlockIn doc.blocks bn with
  | none => none
  | some tb =>
    pickAvailableBlockMulti (availableSetOf netList tb) req.size
      req.reverse_search req.smallest_cidr

theorem multiStep_skip (doc : SpaceDoc) (netList : List NetInfo)
    (req : SpaceCIDRReq) :
    ∀ (l : List String) (st : Option Cidr × Option String × Option String)
      (a : Cidr), st.1 = some a →
      l.foldlM (multiStep doc netList req) st = .ok st := by
  intro l
  induction l with
  | nil => intro st a h; rfl
  | cons bn l ih =>
    intro st a h
    have hstep : multiStep doc netList req st bn = pure st := by
      unfold multiStep
      rw [h]
    rw [List.foldlM_cons, hstep]
    exact ih st a h

theorem multiFold (doc : SpaceDoc) (netList : List NetInfo) (req : SpaceCIDRReq) :
    ∀ (l : List String) (t0 : Option String),
      (∀ bn ∈ l, (findBlockIn doc.blocks bn).isSome = true) →
      (match l.find? (fun bn => (pickFor doc netList req bn).isSome) with
       | some bn => ∃ ab, pickFor doc netList req bn = some ab ∧
           l.foldlM (multiStep doc netList req) (none, none, t0) =
             .ok (some ab, some bn, some bn)
       | none => ∃ tbn, l.foldlM (multiStep doc netList req) (none, none, t0) =
           .ok (none, none, tbn)) := by
  intro l
  induction l with
  | nil =>
    intro t0 _
    exact ⟨t0, rfl⟩
  | cons bn l ih =>
    intro t0 hall
    obtain ⟨tb, htb⟩ : ∃ tb, findBlockIn doc.blocks bn = some tb := by
      have := hall bn (List.mem_cons_self _ _)
      exact Option.isSome_iff_exists.mp this
    have hpf : pickFor doc netList req bn =
        pickAvailableBlockMulti (availableSetOf netList tb) req.size
          req.reverse_search req.smallest_cidr := by
      unfold pickFor
      rw [htb]
    cases hpick : pickFor doc netList req bn with
    | some ab =>
      have hfind : (bn :: l).find? (fun x => (pickFor doc netList req x).isSome) = some bn :=
        List.find?_cons_of_pos _ (by simp [hpick])
      rw [hfind]
      refine ⟨ab, hpick, ?_⟩
      have hstep : multiStep doc netList req (none, none, t0) bn =
          pure (some ab, some bn, some bn) := by
        unfold multiStep
        rw [htb]
        have : pickAvailableBlockMulti (availableSetOf netList tb) req.size
            req.reverse_search req.smallest_cidr = some ab := by
          rw [← hpf]; exact hpick
        simp [this]
      rw [List.foldlM_cons, hstep]
      exact multiStep_skip doc netList req l _ ab rfl
    | none =>
      have hfind : (bn :: l).find? (fun x => (pickFor doc netList req x).isSome) =
          l.find? (fun x => (pickFor doc netList req x).isSome) :=
        List.find?_cons_of_neg _ (by simp [hpick])
      rw [hfind]
      have hstep : multiStep doc netList req (none, none, t0) bn =
          pure (none, none, some bn) := by
        unfold multiStep
        rw [htb]
        have : pickAvailableBlockMulti (availableSetOf netList tb) req.size
            req.reverse_search req.smallest_cidr = none := by
          rw [← hpf]; exact hpick
        simp [this]
      rw [List.foldlM_cons, hstep]
      exact ih (some bn) (fun x hx => hall x (List.mem_cons_of_mem _ hx))

theorem pickAvailableBlockMulti_le {s : IpSet} {size : Nat} {rev small : Bool}
    {ab : Cidr} (h : pickAvailableBlockMulti s size rev small = some ab) :
    ab.len ≤ size := by
  unfold pickAvailableBlockMulti at h
  by_cases hsm : small = true
  · rw [hsm] at h
    simp only [if_true] at h
    cases hm : listMaxNat (((if rev then (iterCidrs s).reverse else iterCidrs s).filter
        (fun c => decide (c.len ≤ size))).map Cidr.len) with
    | none => rw [hm] at h; simp at h
    | some mm =>
      rw [hm] at h
      dsimp only at h
      cases hl : ((if rev then (iterCidrs s).reverse else iterCidrs s).filter
          (fun c => decide (c.len ≤ size))).filter (fun c => decide (c.len = mm)) with
      | nil => rw [hl] at h; simp at h
      | cons x xs =>
        rw [hl] at h
        simp only [List.head?_cons, Option.some.injEq] at h
        have hx : x ∈ ((if rev then (iterCidrs s).reverse else iterCidrs s).filter
            (fun c => decide (c.len ≤ size))).filter (fun c => decide (c.len = mm)) := by
          rw [hl]; exact List.mem_cons_self _ _
        have hle := (List.mem_filter.mp ((List.mem_filter.mp hx).1)).2
        rw [h] at hle
        simpa using hle
  · have hsm2 : small = false := by
      cases small
      · rfl
      · exact absurd rfl hsm
    rw [hsm2] at h
    simp only [if_false] at h
    have := List.find?_some h
    simpa using this

theorem subnetSel_some {c : Cidr} {n : Nat} (rev : Bool) (hlen : c.len ≤ n)
    (hn : n ≤ 32) :
    ∃ v, subnetSel c n rev = some v ∧ v.len = n ∧ v.withinR c := by
  have h0 : 0 < 2 ^ (n - c.len) := Nat.pos_pow_of_pos _ (by norm_num)
  cases rev
  · refine ⟨⟨c.base, n⟩, by simp [subnetSel, subnets_head hlen], rfl, ?_⟩
    have := subnet_withinR (c := c) (n := n) (j := 0) hlen hn h0
    simpa using this
  · refine ⟨⟨c.base + (2 ^ (n - c.len) - 1) * 2 ^ (32 - n), n⟩,
      by simp [subnetSel, subnets_getLast hlen], rfl, ?_⟩
    exact subnet_withinR (c := c) (n := n)
      (j := 2 ^ (n - c.len) - 1) hlen hn (by omega)

/-- C8: the multi-block reservation endpoint walks the caller-supplied block
names in order and commits to the first block whose free set yields a pick:
the reservation (of status wait and prefixLen size, inside the picked free
prefix end selected by reverse_search) is appended to exactly that block,
the response names it, and every other block is untouched; when no listed
block can satisfy the request the handler raises the 500 detail about the
target block(s). -/
theorem C8_multi_block_first_success
    (doc : SpaceDoc) (netList : List NetInfo) (req : SpaceCIDRReq)
    (creator : String) (now : Nat) (newId : String)
    (hvalid : req.blocks.filter
      (fun bn => !(doc.blocks.map (fun b => b.name)).contains bn) = [])
    (hall : ∀ bn ∈ req.blocks, (findBlockIn doc.blocks bn).isSome = true)
    (hsz : req.size ≤ 32) :
    (match req.blocks.find? (fun bn => (pickFor doc netList req bn).isSome) with
     | some bn =>
       ∃ ab r doc2,
         pickFor doc netList req bn = some ab ∧
         subnetSel ab req.size req.reverse_search = some r.cidr ∧
         r.cidr.len = req.size ∧ r.cidr.withinR ab ∧ r.status = "wait" ∧
         create_multi_block_reservation doc netList req creator now newId =
           .ok (doc2, r, some bn) ∧
         doc2 = { doc with blocks := updateBlockFirst doc.blocks bn (fun b => { b with resv := b.resv ++ [r] }) }
     | none =>
       create_multi_block_reservation doc netList req creator now newId =
         .error (.internal "Network of requested size unavailable in target block(s).")) := by
  have hloop := multiFold doc netList req req.blocks none hall
  cases hfind : req.blocks.find? (fun bn => (pickFor doc netList req bn).isSome) with
  | none =>
    rw [hfind] at hloop
    obtain ⟨tbn, hml⟩ := hloop
    simp only [create_multi_block_reservation]
    rw [if_neg (not_not_intro hvalid)]
    have : multiLoop doc netList req = .ok (none, none, tbn) := hml
    rw [this]
  | some bn =>
    rw [hfind] at hloop
    obtain ⟨ab, hab, hml⟩ := hloop
    have hable : ab.len ≤ req.size := by
      unfold pickFor at hab
      cases htb : findBlockIn doc.blocks bn with
      | none => rw [htb] at hab; simp at hab
      | some tb =>
        rw [htb] at hab
        exact pickAvailableBlockMulti_le hab
    obtain ⟨v, hsel, hvlen, hvin⟩ := subnetSel_some req.reverse_search hable hsz
    refine ⟨ab, ⟨newId, v, req.desc, now, creator, none, none, "wait"⟩,
      { doc with blocks := updateBlockFirst doc.blocks bn (fun b => { b with resv := b.resv ++ [⟨newId, v, req.desc, now, creator, none, none, "wait"⟩] }) },
      hab, hsel, hvlen, hvin, rfl, ?_, rfl⟩
    simp only [create_multi_block_reservation]
    rw [if_neg (not_not_intro hvalid)]
    have hml2 : multiLoop doc netList req = .ok (some ab, some bn, some bn) := hml
    rw [hml2]
    dsimp only
    rw [hsel]
    simp

/-- Example fixture: block bA (10.1.0.0/24) fully claimed by an unsettled
reservation, so its free set is empty. -/
def exBlockFull : Block :=
  { name := "bA", cidr := ⟨167837696, 24⟩, vnets := [], externals := [],
    resv := [{ rid := "rf", cidr := ⟨167837696, 24⟩, desc := "x", createdOn := 0,
               createdBy := "u", settledOn := none, settledBy := none, status := "wait" }] }

/-- Example fixture: empty block bB (10.2.0.0/16). -/
def exBlockOpen : Block :=
  { name := "bB", cidr := ⟨167903232, 16⟩, vnets := [], externals := [], resv := [] }

/-- Example fixture: a space carrying bA (exhausted) before bB (open). -/
def exDocMulti : SpaceDoc :=
  { sid := "sidm", name := "corpm", desc := "d", blocks := [exBlockFull, exBlockOpen] }

/-- Witness for C8: asking the blocks in order bA, bB for a /24 skips the
exhausted bA and commits to bB, carving 10.2.0.0/24 (167903232). -/
theorem C8_multi_block_first_success_witness :
    (["bA", "bB"].filter (fun bn =>
        !(exDocMulti.blocks.map (fun b => b.name)).contains bn) = [] ∧
      ["bA", "bB"].find? (fun bn =>
        (pickFor exDocMulti [] ⟨["bA", "bB"], 24, "d", false, false⟩ bn).isSome) = some "bB") ∧
    ∃ r doc2,
      create_multi_block_reservation exDocMulti []
        ⟨["bA", "bB"], 24, "d", false, false⟩ "u" 5 "rid1" = .ok (doc2, r, some "bB") ∧
      r.cidr = ⟨167903232, 24⟩ := by
  have h := C8_multi_block_first_success exDocMulti []
    ⟨["bA", "bB"], 24, "d", false, false⟩ "u" 5 "rid1" (by decide) (by decide) (by decide)
  dsimp only at h
  have hfind : ["bA", "bB"].find? (fun bn =>
      (pickFor exDocMulti [] ⟨["bA", "bB"], 24, "d", false, false⟩ bn).isSome) = some "bB" := by
    decide
  rw [hfind] at h
  obtain ⟨ab, r, doc2, hab, hsel, _, _, _, hres, _⟩ := h
  refine ⟨⟨by decide, hfind⟩, r, doc2, hres, ?_⟩
  have habv : ab = ⟨167903232, 16⟩ := by
    have hc : pickFor exDocMulti [] ⟨["bA", "bB"], 24, "d", false, false⟩ "bB" =
        some ⟨167903232, 16⟩ := by decide
    exact ((Option.some.injEq _ _).mp (hc.symm.trans hab)).symm
  subst habv
  have hv : subnetSel ⟨167903232, 16⟩ 24 false = some ⟨167903232, 24⟩ := by decide
  exact ((Option.some.injEq _ _).mp (hv.symm.trans hsel)).symm

/-- C10: the store-threaded write handlers perform their single
cosmos_replace only on the success path, so whenever the request ends in an
error the persisted store is returned unchanged. -/
theorem C10_error_leaves_store_unchanged :
    (∀ (store : Store) (spaceName blockName : String) (netList : List NetInfo)
        (req : BlockCIDRReq) (creator : String) (now : Nat) (newId : String)
        (e : ApiErr),
      (create_block_reservation store spaceName blockName netList req
        creator now newId).1 = .error e →
      (create_block_reservation store spaceName blockName netList req
        creator now newId).2 = store) ∧
    (∀ (store : Store) (spaceName blockName : String) (netList : List NetInfo)
        (req : ExtNetReq) (e : ApiErr),
      (create_external_network store spaceName blockName netList req).1 = .error e →
      (create_external_network store spaceName blockName netList req).2 = store) := by
  constructor
  · intro store spaceName blockName netList req creator now newId e herr
    unfold create_block_reservation at herr ⊢
    cases hsp : findSpace store spaceName with
    | none => simp
    | some doc =>
      simp only [hsp] at herr ⊢
      cases hbl : findBlockIn doc.blocks blockName with
      | none => simp
      | some tb =>
        simp only [hbl] at herr ⊢
        split at herr
        · rfl
        · simp at herr
  · intro store spaceName blockName netList req e herr
    unfold create_external_network at herr ⊢
    by_cases hn : validName req.name = true
    · rw [if_neg (not_not_intro hn)] at herr ⊢
      by_cases hd : validDesc req.desc = true
      · rw [if_neg (not_not_intro hd)] at herr ⊢
        cases hsp : findSpace store spaceName with
        | none => simp
        | some doc =>
          simp only [hsp] at herr ⊢
          cases hbl : findBlockIn doc.blocks blockName with
          | none => simp
          | some tb =>
            simp only [hbl] at herr ⊢
            by_cases hdup : (tb.externals.map (fun x => x.name)).contains req.name = true
            · rw [if_pos hdup] at herr ⊢
            · rw [if_neg hdup] at herr ⊢
              split at herr
              · rfl
              · simp at herr
      · rw [if_pos hd]
    · rw [if_pos hn]

/-- Witness for C10: a failing by-size reservation (ValueError path) and an
external-network create against an unknown space both leave the store as it
was. -/
theorem C10_error_leaves_store_unchanged_witness :
    ((create_block_reservation [exDocTight] "corp2" "b24" []
        ⟨24, none, "d", false, true⟩ "u" 5 "n1").1
      = .error (.pyError "ValueError: max() arg is an empty sequence") ∧
     (create_block_reservation [exDocTight] "corp2" "b24" []
        ⟨24, none, "d", false, true⟩ "u" 5 "n1").2 = [exDocTight]) ∧
    ((create_external_network [exDocTight] "nosuch" "b24" []
        ⟨"x", "y", none, 24⟩).1 = .error (.badRequest "Invalid space name.") ∧
     (create_external_network [exDocTight] "nosuch" "b24" []
        ⟨"x", "y", none, 24⟩).2 = [exDocTight]) :=
  ⟨⟨by decide, C10_error_leaves_store_unchanged.1 [exDocTight] "corp2" "b24" []
      ⟨24, none, "d", false, true⟩ "u" 5 "n1"
      (.pyError "ValueError: max() arg is an empty sequence") (by decide)⟩,
   ⟨by decide, C10_error_leaves_store_unchanged.2 [exDocTight] "nosuch" "b24" []
      ⟨"x", "y", none, 24⟩ (.badRequest "Invalid space name.") (by decide)⟩⟩

end Ipam
